import Mathlib

/-!
# Verification of the weight-calculator data layer

Shallow embedding of the plate-decomposition algorithm, the workout-id
generator, the record normalizer/validator, the localStorage-backed data
service (export/import, legacy migration) and the user directory, together
with proofs settling the specification claims about them.

Modelling conventions used throughout:
* JS numbers are embedded as rationals (`ℚ`); the sources round all weight
  arithmetic to 2 decimal places precisely to suppress binary floating-point
  drift, and every constant involved is exactly representable.
* `Math.round x` is `⌊x + 1/2⌋` (JS rounds half-up towards +∞).
* Missing / `undefined` object fields are `Option.none`.  For fields whose
  default value is `null` this conflates a present `null` with an absent key;
  the operations modelled here treat the two identically (both are falsy and
  spread-merges only ever overwrite them with full objects).
* `Date.now()`, `Math.random()` and `performance.now()` are modelled by
  explicit oracle parameters (`GenOracle`, `now` strings, `dateMs` parse
  functions) threaded through the definitions.
-/

/-! ## Plate solver (`calculatePlates` in App.js) -/

/-- `Math.round (q * 100) / 100`: round to 2 decimal places, half towards +∞. -/
def round2 (q : ℚ) : ℚ := (⌊q * 100 + 1 / 2⌋ : ℚ) / 100

/-- `PLATE_WEIGHTS_LBS = [45, 25, 10, 5, 2.5]` from utils/constants. -/
def PLATE_WEIGHTS_LBS : List ℚ := [45, 25, 10, 5, 2.5]

/-- `PLATE_WEIGHTS_KG = [25, 20, 15, 10, 5, 2.5, 1.25]` from utils/constants. -/
def PLATE_WEIGHTS_KG : List ℚ := [25, 20, 15, 10, 5, 2.5, 1.25]

/-- The greedy loop of `calculatePlates`: walk the denomination list in the
given order; whenever `remaining >= plate`, take `count = Math.floor
(remaining / plate)` plates, subtract and re-round to 2 decimals.  Returns the
per-denomination counts (in list order, mirroring the `plateBreakdown` object
whose keys are exactly the denominations) and the final remainder. -/
def greedyLoop : List ℚ → ℚ → List (ℚ × ℤ) × ℚ
  | [], r => ([], r)
  | p :: ps, r =>
    if p ≤ r then
      let c : ℤ := ⌊r / p⌋
      let rest := greedyLoop ps (round2 (r - (c : ℚ) * p))
      ((p, c) :: rest.1, rest.2)
    else
      let rest := greedyLoop ps r
      ((p, 0) :: rest.1, rest.2)

/-- Result object of `calculatePlates`. -/
structure PlateResult where
  plateBreakdown : List (ℚ × ℤ)
  actualWeight : ℚ
  targetWeight : ℚ
  exactMatch : Bool
  totalPlates : ℤ
  barbellWeight : ℚ
  plateWeight : ℚ
deriving DecidableEq

/-- Sum of `denomination * count` over the breakdown (the `plateWeight`
reduce in the source; `parseFloat` of the object key recovers the
denomination exactly for the values used). -/
def plateSum (bd : List (ℚ × ℤ)) : ℚ := (bd.map fun x => x.1 * (x.2 : ℚ)).sum

/-- Total number of plates in the breakdown (`totalPlates` reduce). -/
def plateCount (bd : List (ℚ × ℤ)) : ℤ := (bd.map fun x => x.2).sum

/-- `calculatePlates` from App.js: bare bar if the target is below the bar
weight, otherwise greedy decomposition of the 2-decimal-rounded remainder. -/
def calculatePlates (plateWeights : List ℚ) (barbellWeight targetWeight : ℚ) :
    PlateResult :=
  if targetWeight < barbellWeight then
    { plateBreakdown := plateWeights.map fun w => (w, 0)
      actualWeight := barbellWeight
      targetWeight := targetWeight
      exactMatch := false
      totalPlates := 0
      barbellWeight := barbellWeight
      plateWeight := 0 }
  else
    let bd := (greedyLoop plateWeights (round2 (targetWeight - barbellWeight))).1
    let pw := plateSum bd
    let actual := barbellWeight + pw
    { plateBreakdown := bd
      actualWeight := actual
      targetWeight := targetWeight
      exactMatch := decide (|actual - targetWeight| < 1 / 100)
      totalPlates := plateCount bd
      barbellWeight := barbellWeight
      plateWeight := pw }

/-! ## Workout id generator (utils/idGenerator.js) -/

/-- A character matched by `[a-f0-9]` (lowercase hex). -/
def isHexLowerChar (c : Char) : Bool := c.isDigit || ('a' ≤ c && c ≤ 'f')

/-- A character matched by `[0-9a-f]` with the `i` flag (any-case hex). -/
def isHexAnyChar (c : Char) : Bool :=
  c.isDigit || ('a' ≤ c && c ≤ 'f') || ('A' ≤ c && c ≤ 'F')

/-- The regex `/^\d{13}_[a-f0-9]{6,}$/`: thirteen digits, an underscore, then
six or more lowercase hex characters. -/
def isTimestampHexId (s : String) : Bool :=
  let cs := s.data
  decide (20 ≤ cs.length) && (cs.take 13).all (·.isDigit) &&
    decide ((cs.drop 13).take 1 = ['_']) && (cs.drop 14).all isHexLowerChar

/-- Split a character list at every occurrence of a separator character
(used to model `String.split` on `"-"`). -/
def splitOnChar (c : Char) : List Char → List (List Char)
  | [] => [[]]
  | x :: xs =>
    let r := splitOnChar c xs
    if x = c then [] :: r
    else
      match r with
      | [] => [[x]]
      | g :: gs => (x :: g) :: gs

/-- The regex `/^[0-9a-f]{8}-[0-9a-f]{4}-4[0-9a-f]{3}-[89ab][0-9a-f]{3}-[0-9a-f]{12}$/i`. -/
def isUUIDv4 (s : String) : Bool :=
  match splitOnChar '-' s.data with
  | [a, b, c, d, e] =>
    decide (a.length = 8) && decide (b.length = 4) && decide (c.length = 4) &&
    decide (d.length = 4) && decide (e.length = 12) &&
    a.all isHexAnyChar && b.all isHexAnyChar && c.all isHexAnyChar &&
    d.all isHexAnyChar && e.all isHexAnyChar &&
    decide (c.take 1 = ['4']) &&
    (match d.take 1 with
     | [ch] => decide (ch = '8' ∨ ch = '9' ∨ ch = 'a' ∨ ch = 'b' ∨ ch = 'A' ∨ ch = 'B')
     | _ => false)
  | _ => false

/-- The regex `/^\d+$/`: a non-empty all-digit string (legacy numeric id). -/
def isNumericId (s : String) : Bool := !(s.data.isEmpty) && s.data.all (·.isDigit)

/-- `isValidWorkoutId`: accepts timestamp_hex, UUIDv4, or a bare legacy
integer (the source first rejects non-strings and empty strings; the
embedding ranges over strings, and the empty string fails all three
patterns). -/
def isValidWorkoutId (s : String) : Bool :=
  isTimestampHexId s || isUUIDv4 s || isNumericId s

/-- Oracle supplying the nondeterministic inputs of the generator:
`Date.now()` (`ts`, `wts`), the hex expansion of `Math.random()` (`hex6`,
`hex8`), `Math.floor((performance.now() % 1) * 1000)` (`micro`) at each loop
attempt, and the UUID produced by the final fallback. -/
structure GenOracle where
  ts : ℕ → ℕ
  hex6 : ℕ → String
  wts : ℕ → ℕ
  micro : ℕ → ℕ
  hex8 : ℕ → String
  uuid : String

/-- `generateUniqueId()` as called at loop attempt `k`:
`timestamp + "_" + randomHex`. -/
def primaryCand (o : GenOracle) (k : ℕ) : String :=
  toString (o.ts k) ++ "_" ++ o.hex6 k

/-- The widened-entropy candidate built once `attempts > 10`:
`timestamp + "_" + microseconds + "_" + randomHex`. -/
def wideCand (o : GenOracle) (k : ℕ) : String :=
  toString (o.wts k) ++ "_" ++ toString (o.micro k) ++ "_" ++ o.hex8 k

/-- The `while (attempts < maxAttempts)` loop of `generateWorkoutId`,
fuelled by the number of remaining iterations (`maxAttempts - attempts`).
Each iteration draws a primary candidate; on collision it increments
`attempts` and, once `attempts > 10`, additionally tries the widened
candidate.  When the fuel runs out the UUID fallback is returned. -/
def generateWorkoutIdAux (existing : List String) (o : GenOracle) :
    ℕ → ℕ → String
  | 0, _ => o.uuid
  | fuel + 1, k =>
    let id := primaryCand o k
    if existing.contains id then
      let k1 := k + 1
      if 10 < k1 then
        let w := wideCand o k1
        if existing.contains w then generateWorkoutIdAux existing o fuel k1
        else w
      else generateWorkoutIdAux existing o fuel k1
    else id

/-- `generateWorkoutId(existingIds)` with `maxAttempts = 100`. -/
def generateWorkoutId (existing : List String) (o : GenOracle) : String :=
  generateWorkoutIdAux existing o 100 0

/-- `upgradeLegacyId`: keep an id that is already valid and not bare-numeric,
otherwise generate a fresh one. -/
def upgradeLegacyId (oldId : String) (existing : List String) (o : GenOracle) :
    String :=
  if isValidWorkoutId oldId && !(isNumericId oldId) then oldId
  else generateWorkoutId existing o

/-! ## Workout records: normalization and validation (dataService.js) -/

/-- `x || d` for a possibly-missing JS number `x` (both `undefined`/`NaN`,
modelled as `none`, and `0` are falsy). -/
def jsOrQ (v : Option ℚ) (d : ℚ) : ℚ :=
  match v with
  | none => d
  | some q => if q = 0 then d else q

/-- `x || d` for a possibly-missing JS string `x` (`undefined` and `""` are
falsy). -/
def jsOrS (v : Option String) (d : String) : String :=
  match v with
  | none => d
  | some s => if s = "" then d else s

/-- Truthiness filter for an optional string: `some s` with `s ≠ ""`. -/
def truthyS (v : Option String) : Option String :=
  v.bind fun s => if s = "" then none else some s

/-- A raw workout object as fed to `normalizeWorkout`: every field may be
missing.  Numeric fields carry the result of the JS `Number(...)` coercion
(`none` standing for a missing field or a `NaN` coercion, which behave
identically under `|| default`), `completed` carries the field's truthiness,
string fields carry strings. -/
structure RawWorkout where
  id : Option String := none
  date : Option String := none
  exercise : Option String := none
  targetWeight : Option ℚ := none
  actualWeight : Option ℚ := none
  unit : Option String := none
  barbell : Option String := none
  sets : Option ℚ := none
  reps : Option ℚ := none
  completed : Option Bool := none
  notes : Option String := none
  createdAt : Option String := none
  updatedAt : Option String := none
deriving DecidableEq

/-- A normalized workout record: the shape produced by `normalizeWorkout`,
with every field present. -/
structure Workout where
  id : String
  date : String
  exercise : String
  targetWeight : ℚ
  actualWeight : ℚ
  unit : String
  barbell : String
  sets : ℚ
  reps : ℚ
  completed : Bool
  notes : String
  createdAt : String
  updatedAt : String
deriving DecidableEq

/-- View a normalized record as a raw object (every field present), e.g. when
it is read back from storage or re-enters `normalizeWorkout`. -/
def Workout.toRaw (w : Workout) : RawWorkout :=
  { id := some w.id
    date := some w.date
    exercise := some w.exercise
    targetWeight := some w.targetWeight
    actualWeight := some w.actualWeight
    unit := some w.unit
    barbell := some w.barbell
    sets := some w.sets
    reps := some w.reps
    completed := some w.completed
    notes := some w.notes
    createdAt := some w.createdAt
    updatedAt := some w.updatedAt }

/-- `new Date().toISOString().split('T')[0]`: the date part of an ISO
timestamp. -/
def isoDatePart (now : String) : String := String.mk (now.data.takeWhile (· ≠ 'T'))

/-- `DataTransformers.normalizeWorkout(workout, existingIds)`.  The id is
kept when present and valid (legacy bare-numeric ids are upgraded, anything
else is regenerated); every other field is filled with its default.  `o`
models the randomness consumed by id generation and `now` the current
`new Date().toISOString()`. -/
def normalizeWorkout (w : RawWorkout) (existingIds : List String)
    (o : GenOracle) (now : String) : Workout :=
  let id0 := w.id.getD ""
  let wid :=
    if id0 = "" || !(isValidWorkoutId id0) then generateWorkoutId existingIds o
    else if isNumericId id0 then upgradeLegacyId id0 existingIds o
    else id0
  { id := wid
    date := jsOrS w.date (isoDatePart now)
    exercise := jsOrS w.exercise ""
    targetWeight := jsOrQ w.targetWeight 0
    actualWeight := jsOrQ w.actualWeight 0
    unit := jsOrS w.unit "lbs"
    barbell := jsOrS w.barbell "Olympic Barbell (45 lbs)"
    sets := jsOrQ w.sets 1
    reps := jsOrQ w.reps 1
    completed := w.completed.getD false
    notes := jsOrS w.notes ""
    createdAt := jsOrS w.createdAt now
    updatedAt := now }

/-- `DataValidators.workout`.  The required-fields presence check
(`=== undefined || === null`) always passes on a normalized record (every
field is present), so the embedding checks the value constraints in source
order and reports the first failing one. -/
def validateWorkout (w : Workout) : Except String Unit :=
  if w.targetWeight ≤ 0 then Except.error "Target weight must be a positive number"
  else if w.actualWeight ≤ 0 then Except.error "Actual weight must be a positive number"
  else if ¬(w.unit = "lbs" ∨ w.unit = "kg") then Except.error "Unit must be either lbs or kg"
  else if w.sets ≤ 0 then Except.error "Sets must be a positive number"
  else if w.reps ≤ 0 then Except.error "Reps must be a positive number"
  else Except.ok ()

/-- Re-stamp `updatedAt` (what normalization does to an already-normal
record). -/
def stamp (now : String) (w : Workout) : Workout := { w with updatedAt := now }

deriving instance DecidableEq for Except

/-- A stored record that normalization reproduces verbatim (except for the
`updatedAt` re-stamp): valid non-numeric id and no falsy field that a
default would overwrite, plus passing validation. -/
def StableWorkout (w : Workout) : Prop :=
  isValidWorkoutId w.id = true ∧ isNumericId w.id = false ∧ w.id ≠ "" ∧
  w.date ≠ "" ∧ w.createdAt ≠ "" ∧ w.barbell ≠ "" ∧
  validateWorkout w = Except.ok ()

instance : DecidablePred StableWorkout := fun w => by
  unfold StableWorkout; infer_instance

/-! ## Preferences and settings (dataService.js / localStorageService.js) -/

/-- A barbell option (`{ weight, label }`). -/
structure Barbell where
  weight : ℚ
  label : String
deriving DecidableEq

/-- Fully-populated preferences (the shape of `DEFAULT_PREFERENCES` and of
every merged preferences object). -/
structure Prefs where
  unit : String
  theme : String
  defaultBarbell : Barbell
  autoSave : Bool
  showNotifications : Bool
deriving DecidableEq

/-- `DEFAULT_PREFERENCES`. -/
def DEFAULT_PREFERENCES : Prefs :=
  { unit := "lbs"
    theme := "light"
    defaultBarbell := { weight := 45, label := "Olympic Barbell (45 lbs)" }
    autoSave := true
    showNotifications := true }

/-- A stored / incoming preferences object with possibly-missing fields. -/
structure RawPrefs where
  unit : Option String := none
  theme : Option String := none
  defaultBarbell : Option Barbell := none
  autoSave : Option Bool := none
  showNotifications : Option Bool := none
deriving DecidableEq

/-- The spread merge `{ ...DEFAULT_PREFERENCES, ...raw }` (presence-based:
a present field wins even when falsy). -/
def mergePrefs (raw : RawPrefs) : Prefs :=
  { unit := raw.unit.getD DEFAULT_PREFERENCES.unit
    theme := raw.theme.getD DEFAULT_PREFERENCES.theme
    defaultBarbell := raw.defaultBarbell.getD DEFAULT_PREFERENCES.defaultBarbell
    autoSave := raw.autoSave.getD DEFAULT_PREFERENCES.autoSave
    showNotifications := raw.showNotifications.getD DEFAULT_PREFERENCES.showNotifications }

/-- View a full preferences object as a raw one (every field present), e.g.
after JSON (de)serialization. -/
def Prefs.toRaw (p : Prefs) : RawPrefs :=
  { unit := some p.unit
    theme := some p.theme
    defaultBarbell := some p.defaultBarbell
    autoSave := some p.autoSave
    showNotifications := some p.showNotifications }

/-- `DataValidators.preferences`: a truthy `unit` must be `lbs`/`kg`, a
truthy `theme` must be `light`/`dark`. -/
def prefsValid (unit theme : Option String) : Bool :=
  (match unit with
   | some s => if s = "" then true else decide (s = "lbs" ∨ s = "kg")
   | none => true) &&
  (match theme with
   | some s => if s = "" then true else decide (s = "light" ∨ s = "dark")
   | none => true)

/-- `DATA_SCHEMA_VERSION`. -/
def DATA_SCHEMA_VERSION : String := "1.0.0"

/-- Fully-populated app settings (the merged view returned by
`getSettings`).  `lastBackup` and `firstUse` are nullable (`none` = `null`). -/
structure Settings where
  dataVersion : String
  lastBackup : Option String
  totalWorkouts : ℚ
  firstUse : Option String
deriving DecidableEq

/-- A stored / incoming settings object with possibly-missing fields.  A
present JS `null` is conflated with an absent key; the defaults for the two
nullable fields are `null`, and the settings operations only ever test these
fields for truthiness, so the conflation is observation-preserving. -/
structure RawSettings where
  dataVersion : Option String := none
  lastBackup : Option String := none
  totalWorkouts : Option ℚ := none
  firstUse : Option String := none
deriving DecidableEq

/-- The spread merge `{ ...DEFAULT_SETTINGS, ...raw }`. -/
def mergeSettings (raw : RawSettings) : Settings :=
  { dataVersion := raw.dataVersion.getD DATA_SCHEMA_VERSION
    lastBackup := raw.lastBackup
    totalWorkouts := raw.totalWorkouts.getD 0
    firstUse := raw.firstUse }

/-- View full settings as a raw object. -/
def Settings.toRaw (s : Settings) : RawSettings :=
  { dataVersion := some s.dataVersion
    lastBackup := s.lastBackup
    totalWorkouts := some s.totalWorkouts
    firstUse := s.firstUse }

/-- `createDefaultSettings()`. -/
def createDefaultSettings (now : String) : Settings :=
  { dataVersion := DATA_SCHEMA_VERSION
    lastBackup := none
    totalWorkouts := 0
    firstUse := some now }

/-! ## The localStorage key set and the data-service operations -/

/-- The contents of one storage scope (either the unscoped legacy keys or
the keys suffixed `_user_{id}` for one user): the parsed values stored under
the four `STORAGE_KEYS`, `none` meaning the key is absent. -/
structure KeySet where
  workouts : Option (List RawWorkout) := none
  prefs : Option RawPrefs := none
  settings : Option RawSettings := none
  version : Option String := none
deriving DecidableEq

/-- The body of `getWorkoutHistory`: normalize each stored entry against the
ids seen so far, validate, silently drop entries that still fail, and add
surviving ids to the collision set.  `os i` is the randomness available to
the `i`-th normalization. -/
def workoutHistLoop (os : ℕ → GenOracle) (now : String) :
    List RawWorkout → ℕ → List String → List Workout
  | [], _, _ => []
  | w :: ws, i, ids =>
    let n := normalizeWorkout w ids (os i) now
    if (validateWorkout n).isOk then
      n :: workoutHistLoop os now ws (i + 1) (ids ++ [n.id])
    else workoutHistLoop os now ws (i + 1) ids

/-- `getWorkoutHistory()`: read the raw list (default `[]`), seed the
collision set with `workouts.map(w => w.id).filter(Boolean)`, then
normalize-validate-collect. -/
def getWorkoutHistory (os : ℕ → GenOracle) (now : String) (s : KeySet) :
    List Workout :=
  let raws := s.workouts.getD []
  workoutHistLoop os now raws 0
    ((raws.filterMap (·.id)).filter fun x => !(x == ""))

/-- `getPreferences()`: parsed stored value (default `DEFAULT_PREFERENCES`),
validated, merged over the defaults; invalid stored values fall back to the
defaults.  Never writes. -/
def getPreferences (s : KeySet) : Prefs :=
  match s.prefs with
  | none => DEFAULT_PREFERENCES
  | some raw => if prefsValid raw.unit raw.theme then mergePrefs raw else DEFAULT_PREFERENCES

/-- `savePreferences(preferences)`: merge over defaults, validate, store the
merged object.  On a validation error the store is untouched. -/
def savePreferences (raw : RawPrefs) (s : KeySet) :
    Except String Prefs × KeySet :=
  let merged := mergePrefs raw
  if prefsValid (some merged.unit) (some merged.theme) then
    (Except.ok merged, { s with prefs := some merged.toRaw })
  else
    (Except.error "Unit preference must be either lbs or kg", s)

/-- `saveSettings(settings)`: spread `DEFAULT_SETTINGS`, the currently stored
object and the incoming one, with `firstUse` overridden to
`current?.firstUse || incoming.firstUse || now`, then store the result. -/
def saveSettings (inc : RawSettings) (now : String) (s : KeySet) :
    Settings × KeySet :=
  let cur := s.settings
  let fu : String :=
    ((truthyS (cur.bind (·.firstUse))).orElse fun _ =>
      truthyS inc.firstUse).getD now
  let merged : Settings :=
    { dataVersion :=
        ((inc.dataVersion.orElse fun _ => cur.bind (·.dataVersion)).getD
          DATA_SCHEMA_VERSION)
      lastBackup := inc.lastBackup.orElse fun _ => cur.bind (·.lastBackup)
      totalWorkouts := ((inc.totalWorkouts.orElse fun _ =>
        cur.bind (·.totalWorkouts)).getD 0)
      firstUse := some fu }
  (merged, { s with settings := some merged.toRaw })

/-- `getSettings()`: when no settings are stored, create defaults (stamping
`firstUse` with the current time), persist them via `saveSettings` and
return them; otherwise return the stored object merged over the defaults. -/
def getSettings (now : String) (s : KeySet) : Settings × KeySet :=
  match s.settings with
  | none =>
    let ns := createDefaultSettings now
    (ns, (saveSettings ns.toRaw now s).2)
  | some raw => (mergeSettings raw, s)

/-- The export bundle built by `prepareExportData` (§6 export file format). -/
structure ExportBundle where
  version : String
  exportDate : String
  workouts : List Workout
  preferences : Prefs
  settings : Settings
  totalWorkouts : ℕ
  dateRange : Option (ℤ × ℤ)
deriving DecidableEq

/-- `list.map` with the element index, mirroring the JS `Array.prototype.map`
callback signature. -/
def mapWithIndex (f : ℕ → α → β) : List α → ℕ → List β
  | [], _ => []
  | x :: xs, i => f i x :: mapWithIndex f xs (i + 1)

/-- `DataTransformers.prepareExportData(workouts, preferences, settings)`.
The source maps `normalizeWorkout` directly over the array, so the second
argument received is the element *index*, not an id set; it is only consulted
when a fresh id must be generated, which cannot happen for the
already-normalized records this is called on.  The embedding passes the
empty id set in that position.  `dateMs` models `new Date(x).getTime()`. -/
def prepareExportData (workouts : List Workout) (preferences : Prefs)
    (settings : Settings) (os : ℕ → GenOracle) (dateMs : String → ℤ)
    (now : String) : ExportBundle :=
  { version := DATA_SCHEMA_VERSION
    exportDate := now
    workouts := mapWithIndex (fun i w => normalizeWorkout w.toRaw [] (os i) now) workouts 0
    preferences := mergePrefs preferences.toRaw
    settings := mergeSettings settings.toRaw
    totalWorkouts := workouts.length
    dateRange :=
      match workouts.map fun w => dateMs w.date with
      | [] => none
      | x :: xs => some (xs.foldl min x, xs.foldl max x) }

/-- `exportData()`: snapshot history, preferences and settings (the
`getSettings` call may persist freshly-created settings) and build the
bundle. -/
def exportData (os₁ os₂ : ℕ → GenOracle) (dateMs : String → ℤ)
    (now : String) (s : KeySet) : ExportBundle × KeySet :=
  let hist := getWorkoutHistory os₁ now s
  let prefs := getPreferences s
  let st := getSettings now s
  (prepareExportData hist prefs st.1 os₂ dateMs now, st.2)

/-- Stable insertion of `x` into a descending-by-key list (used to model
`Array.prototype.sort` with the `(a, b) => key(b) - key(a)` comparator). -/
def insertByDesc (key : α → ℤ) (x : α) : List α → List α
  | [] => [x]
  | y :: ys => if key y ≤ key x then x :: y :: ys else y :: insertByDesc key x ys

/-- Stable descending sort by an integer key. -/
def sortByDesc (key : α → ℤ) : List α → List α
  | [] => []
  | x :: xs => insertByDesc key x (sortByDesc key xs)

/-- The per-record loop of `importData`: normalize against the running id
set, validate (invalid records are skipped), skip records whose normalized id
already exists (counted as duplicates), accept the rest.  Returns the list of
accepted records. -/
def importLoop (os : ℕ → GenOracle) (now : String) :
    List RawWorkout → ℕ → List String → List Workout → List Workout
  | [], _, _, acc => acc
  | w :: ws, i, ids, acc =>
    let n := normalizeWorkout w ids (os i) now
    if (validateWorkout n).isOk then
      if ids.contains n.id then importLoop os now ws (i + 1) ids acc
      else importLoop os now ws (i + 1) (ids ++ [n.id]) (acc ++ [n])
    else importLoop os now ws (i + 1) ids acc

/-- The object shape `importData` reads from a parsed backup file. -/
structure RawBundle where
  version : Option String := none
  workouts : Option (List RawWorkout) := none
  preferences : Option RawPrefs := none
  settings : Option RawSettings := none
deriving DecidableEq

/-- An import payload: either not an object at all (numbers, strings,
booleans, `null`, `undefined`), or an object with the bundle fields possibly
missing. -/
inductive ImportInput where
  | nonObject
  | bundle (d : RawBundle)

/-- `importData(data)`: reject non-objects and bundles without a truthy
`version` before any write (a version mismatch is only a console warning);
merge workouts (deduplicating by id and re-sorting by date descending),
then bring in preferences (errors swallowed) and re-save settings with
`totalWorkouts` recomputed from the post-merge history. -/
def importData (inp : ImportInput) (os₁ os₂ os₃ : ℕ → GenOracle)
    (dateMs : String → ℤ) (now : String) (s : KeySet) :
    Except String Unit × KeySet :=
  match inp with
  | ImportInput.nonObject => (Except.error "Invalid import data format", s)
  | ImportInput.bundle d =>
    if (truthyS d.version).isNone then
      (Except.error "Import data missing version information", s)
    else
      let s1 :=
        match d.workouts with
        | some ws =>
          let existing := getWorkoutHistory os₁ now s
          let valid := importLoop os₂ now ws 0 (existing.map (·.id)) []
          let merged := sortByDesc (fun w => dateMs w.date) (existing ++ valid)
          { s with workouts := some (merged.map Workout.toRaw) }
        | none => s
      let s2 :=
        match d.preferences with
        | some p => (savePreferences p s1).2
        | none => s1
      let finalW := getWorkoutHistory os₃ now s2
      let st := getSettings now s2
      let s4 :=
        match d.settings with
        | some inc =>
          (saveSettings { inc with totalWorkouts := some (finalW.length : ℚ) } now st.2).2
        | none =>
          (saveSettings { st.1.toRaw with totalWorkouts := some (finalW.length : ℚ) } now st.2).2
      (Except.ok (), s4)

/-- Re-serialize an export bundle as an import payload (the JSON round trip
through the backup file: every field of the bundle is present). -/
def bundleToImport (b : ExportBundle) : ImportInput :=
  ImportInput.bundle
    { version := some b.version
      workouts := some (b.workouts.map Workout.toRaw)
      preferences := some b.preferences.toRaw
      settings := some b.settings.toRaw }

/-! ## Legacy-data migration (localStorageService.js / dataServiceFactory.js) -/

/-- The two storage scopes touched by legacy migration: the unscoped legacy
keys and the keys scoped to the target user. -/
structure LegacyState where
  legacy : KeySet
  userScoped : KeySet
deriving DecidableEq

/-- `hasLegacyData()`: any of the three unscoped data keys present. -/
def hasLegacyData (st : LegacyState) : Bool :=
  st.legacy.workouts.isSome || st.legacy.prefs.isSome || st.legacy.settings.isSome

/-- `migrateLegacyDataToUser(userId)` (reached through
`DataServiceFactory.migrateLegacyData`): for each of the workout-history,
preferences and settings keys, when the unscoped key is present copy its
parsed contents (with the `_getItem` defaults `[]` / `{}`) to the user-scoped
key and delete the unscoped original.  Returns whether anything was
migrated. -/
def migrateLegacyDataToUser (st : LegacyState) : Bool × LegacyState :=
  let step1 :=
    if st.legacy.workouts.isSome then
      (true,
        { legacy := { st.legacy with workouts := none }
          userScoped := { st.userScoped with workouts := some (st.legacy.workouts.getD []) } })
    else (false, st)
  let st1 := step1.2
  let step2 :=
    if st1.legacy.prefs.isSome then
      (true,
        { legacy := { st1.legacy with prefs := none }
          userScoped := { st1.userScoped with prefs := some (st1.legacy.prefs.getD {}) } })
    else (false, st1)
  let st2 := step2.2
  let step3 :=
    if st2.legacy.settings.isSome then
      (true,
        { legacy := { st2.legacy with settings := none }
          userScoped := { st2.userScoped with settings := some (st2.legacy.settings.getD {}) } })
    else (false, st2)
  (step1.1 || step2.1 || step3.1, step3.2)

/-! ## User directory (userService.js) -/

/-- `user.metadata` after normalization. -/
structure UserMeta where
  totalWorkouts : ℚ
  firstWorkout : Option String
  lastWorkout : Option String
deriving DecidableEq

/-- A raw `metadata` object. -/
structure RawUserMeta where
  totalWorkouts : Option ℚ := none
  firstWorkout : Option String := none
  lastWorkout : Option String := none
deriving DecidableEq

/-- A normalized user profile. -/
structure UserProfile where
  id : String
  name : String
  createdAt : String
  lastActive : String
  preferences : Prefs
  isActive : Bool
  metadata : UserMeta
deriving DecidableEq

/-- A raw user object (input to `normalizeUser` / shape of stored list
entries). -/
structure RawUser where
  id : Option String := none
  name : Option String := none
  createdAt : Option String := none
  lastActive : Option String := none
  preferences : Option RawPrefs := none
  isActive : Option Bool := none
  metadata : Option RawUserMeta := none
deriving DecidableEq

/-- View a normalized profile as a raw object (all fields present). -/
def UserProfile.toRaw (u : UserProfile) : RawUser :=
  { id := some u.id
    name := some u.name
    createdAt := some u.createdAt
    lastActive := some u.lastActive
    preferences := some u.preferences.toRaw
    isActive := some u.isActive
    metadata := some
      { totalWorkouts := some u.metadata.totalWorkouts
        firstWorkout := u.metadata.firstWorkout
        lastWorkout := u.metadata.lastWorkout } }

/-- `String.prototype.trim()` (ASCII whitespace). -/
def jsTrim (s : String) : String :=
  String.mk (((s.data.dropWhile Char.isWhitespace).reverse.dropWhile
    Char.isWhitespace).reverse)

/-- `String.prototype.toLowerCase()` (ASCII letters; the stored names are
restricted to an ASCII charset by validation). -/
def jsToLower (s : String) : String := String.mk (s.data.map Char.toLower)

/-- `DEFAULT_USER_PREFERENCES` coincides with `DEFAULT_PREFERENCES`. -/
def DEFAULT_USER_PREFERENCES : Prefs := DEFAULT_PREFERENCES

/-- Environment for the user service: candidate ids for
`generateUserId` (indexed by attempt), `new Date(x).getTime()` for the
`lastActive` sort, and the current `new Date().toISOString()`. -/
structure UserEnv where
  uid : ℕ → String
  dateMs : String → ℤ
  now : String

/-- The retry loop of `UserTransformers.generateUserId`.  The source loops
until the candidate avoids `existingIds`; the embedding fuels the loop and
falls back to the last candidate drawn. -/
def generateUserIdAux (existing : List String) (env : UserEnv) : ℕ → ℕ → String
  | 0, k => env.uid k
  | fuel + 1, k => if existing.contains (env.uid k) then generateUserIdAux existing env fuel (k + 1) else env.uid k

/-- `generateUserId(existingIds)`. -/
def generateUserId (existing : List String) (env : UserEnv) : String :=
  generateUserIdAux existing env 1000 0

/-- `UserTransformers.normalizeUser(userData, existingIds)`. -/
def normalizeUser (u : RawUser) (existing : List String) (env : UserEnv) :
    UserProfile :=
  { id := jsOrS u.id (generateUserId existing env)
    name := jsTrim (u.name.getD "")
    createdAt := jsOrS u.createdAt env.now
    lastActive := jsOrS u.lastActive env.now
    preferences := mergePrefs (u.preferences.getD {})
    isActive := u.isActive.getD true
    metadata :=
      { totalWorkouts := jsOrQ (u.metadata.bind (·.totalWorkouts)) 0
        firstWorkout := u.metadata.bind (·.firstWorkout)
        lastWorkout := u.metadata.bind (·.lastWorkout) } }

/-- A character allowed by the user-name charset regex
`/^[a-zA-Z0-9\s\-_]+$/`. -/
def isNameChar (c : Char) : Bool :=
  c.isAlpha || c.isDigit || c.isWhitespace || c = '-' || c = '_'

/-- `UserValidators.name`. -/
def validateUserName (name : String) : Except String Unit :=
  if name = "" then Except.error "User name is required and must be a string"
  else if (jsTrim name).length < 2 then
    Except.error "User name must be at least 2 characters long"
  else if 50 < (jsTrim name).length then
    Except.error "User name must be less than 50 characters"
  else if ¬((jsTrim name).data.all isNameChar) then
    Except.error "User name can only contain letters, numbers, spaces, hyphens, and underscores"
  else Except.ok ()

/-- `UserValidators.user`: required-field truthiness for `id`, `name`,
`createdAt`, then name validation, then the non-empty-string id check. -/
def validateUser (u : UserProfile) : Except String Unit :=
  if u.id = "" || u.name = "" || u.createdAt = "" then
    Except.error "Missing required user fields"
  else
    match validateUserName u.name with
    | Except.error e => Except.error e
    | Except.ok _ =>
      if u.id.length < 1 then Except.error "User ID must be a non-empty string"
      else Except.ok ()

/-- The persistent state of the user service: the parsed `USERS_LIST`,
`CURRENT_USER` and `USER_SESSIONS` keys. -/
structure Session where
  userId : String
  type : String
  timestamp : String
deriving DecidableEq

structure UserStore where
  users : Option (List RawUser) := none
  currentUser : Option String := none
  sessions : Option (List Session) := none
deriving DecidableEq

/-- The normalize-validate-collect loop of `getAllUsers`. -/
def usersLoop (env : UserEnv) :
    List RawUser → List String → List UserProfile
  | [], _ => []
  | u :: us, ids =>
    let n := normalizeUser u ids env
    if (validateUser n).isOk then n :: usersLoop env us (ids ++ [n.id])
    else usersLoop env us ids

/-- `getAllUsers()`: read, normalize, validate (dropping bad entries) and
sort by `lastActive` descending. -/
def getAllUsers (store : UserStore) (env : UserEnv) : List UserProfile :=
  let raws := store.users.getD []
  sortByDesc (fun u => env.dateMs u.lastActive)
    (usersLoop env raws ((raws.filterMap (·.id)).filter fun x => !(x == "")))

/-- `getUserById(userId)`. -/
def getUserById (userId : Option String) (store : UserStore) (env : UserEnv) :
    Option UserProfile :=
  match truthyS userId with
  | none => none
  | some uid => (getAllUsers store env).find? fun u => u.id = uid

/-- `getCurrentUser()`. -/
def getCurrentUser (store : UserStore) (env : UserEnv) : Option UserProfile :=
  getUserById store.currentUser store env

/-- `_logSession(userId, type)`: append an entry and prune to the last 100
entries for that user. -/
def logSession (uid ty : String) (store : UserStore) (env : UserEnv) :
    UserStore :=
  let sessions := store.sessions.getD [] ++ [{ userId := uid, type := ty, timestamp := env.now }]
  let userSessions := sessions.filter fun s => s.userId == uid
  let pruned := userSessions.drop (userSessions.length - 100)
  let others := sessions.filter fun s => !(s.userId == uid)
  { store with sessions := some (others ++ pruned) }

/-- `clearCurrentUser()`: log a logout for the current user (when there is
one) and remove the pointer. -/
def clearCurrentUser (store : UserStore) (env : UserEnv) : UserStore :=
  let store1 :=
    match getCurrentUser store env with
    | some cu => logSession cu.id "logout" store env
    | none => store
  { store1 with currentUser := none }

/-- `createUser(userData)`: case-insensitive duplicate-name check against
*all* users returned by `getAllUsers` (active or not), then normalize,
validate and append.  A missing `name` would crash the source on
`userData.name.toLowerCase()`; the embedding reports it as an error. -/
def createUser (userData : RawUser) (store : UserStore) (env : UserEnv) :
    Except String UserProfile × UserStore :=
  match userData.name with
  | none => (Except.error "TypeError: name is not a string", store)
  | some nm =>
    let users := getAllUsers store env
    let existingIds := users.map (·.id)
    let existingNames := users.map fun u => jsToLower u.name
    if existingNames.contains (jsTrim (jsToLower nm)) then
      (Except.error "A user with this name already exists", store)
    else
      let newUser := normalizeUser userData existingIds env
      match validateUser newUser with
      | Except.error e => (Except.error e, store)
      | Except.ok _ =>
        (Except.ok newUser,
          { store with users := some ((users ++ [newUser]).map UserProfile.toRaw) })

/-- `deleteUser(userId)`: soft delete (flip `isActive`, bump `lastActive`),
write the list back, and clear the session pointer when it pointed at the
deleted user. -/
def deleteUser (uid : String) (store : UserStore) (env : UserEnv) :
    Except String Bool × UserStore :=
  let users := getAllUsers store env
  match users.findIdx? (fun u => u.id = uid) with
  | none => (Except.error ("User with ID " ++ uid ++ " not found"), store)
  | some i =>
    let orig := users.getD i (normalizeUser {} [] env)
    let users1 := users.set i { orig with isActive := false, lastActive := env.now }
    let store1 := { store with users := some (users1.map UserProfile.toRaw) }
    let store2 :=
      match getCurrentUser store1 env with
      | some cu => if cu.id = uid then clearCurrentUser store1 env else store1
      | none => store1
    (Except.ok true, store2)

/-- The spread merge `{ ...user, ...updates, lastActive: now }` feeding
`normalizeUser` inside `updateUser`. -/
def patchUser (orig : UserProfile) (updates : RawUser) (now : String) : RawUser :=
  { id := updates.id.orElse fun _ => some orig.id
    name := updates.name.orElse fun _ => some orig.name
    createdAt := updates.createdAt.orElse fun _ => some orig.createdAt
    lastActive := some now
    preferences := updates.preferences.orElse fun _ => some orig.preferences.toRaw
    isActive := updates.isActive.orElse fun _ => some orig.isActive
    metadata := updates.metadata.orElse fun _ => some
      { totalWorkouts := some orig.metadata.totalWorkouts
        firstWorkout := orig.metadata.firstWorkout
        lastWorkout := orig.metadata.lastWorkout } }

mutual

/-- `updateUser(userId, updates)`: locate the user, check name uniqueness
when a truthy changed name is supplied, merge the patch (re-stamping
`lastActive`), re-normalize (the source omits the id-set argument),
validate, write the list back, and — when the updated user is the current
session user — re-enter `setCurrentUser`.  The mutual recursion with
`setCurrentUser` is fuelled; exhausting the fuel reports an error (the
source would recurse without bound). -/
def updateUserF : ℕ → String → RawUser → UserStore → UserEnv →
    Except String UserProfile × UserStore
  | fuel, uid, updates, store, env =>
    let users := getAllUsers store env
    match users.findIdx? (fun u => u.id = uid) with
    | none => (Except.error ("User with ID " ++ uid ++ " not found"), store)
    | some i =>
      let orig := users.getD i (normalizeUser {} [] env)
      let nameClash : Bool :=
        match truthyS updates.name with
        | some nm =>
          if nm == orig.name then false
          else ((users.filter fun u => !(u.id == uid)).map fun u => jsToLower u.name).contains
            (jsTrim (jsToLower nm))
        | none => false
      if nameClash then (Except.error "A user with this name already exists", store)
      else
        let normalized := normalizeUser (patchUser orig updates env.now) [] env
        match validateUser normalized with
        | Except.error e => (Except.error e, store)
        | Except.ok _ =>
          let users1 := users.set i normalized
          let store1 := { store with users := some (users1.map UserProfile.toRaw) }
          match getCurrentUser store1 env with
          | some cu =>
            if cu.id = uid then
              match fuel with
              | 0 => (Except.error "call depth exhausted", store1)
              | f + 1 =>
                let r := setCurrentUserF f normalized.id store1 env
                match r.1 with
                | Except.error e => (Except.error e, r.2)
                | Except.ok _ => (Except.ok normalized, r.2)
            else (Except.ok normalized, store1)
          | none => (Except.ok normalized, store1)
termination_by fuel _ _ _ _ => fuel

/-- `setCurrentUser(userOrId)`: resolve the user, reject missing or inactive
users *before* any mutation, bump `lastActive` through `updateUser`, store
the pointer and log a login session. -/
def setCurrentUserF : ℕ → String → UserStore → UserEnv →
    Except String UserProfile × UserStore
  | fuel, uid, store, env =>
    match getUserById (some uid) store env with
    | none => (Except.error ("User with ID " ++ uid ++ " not found"), store)
    | some u =>
      if !u.isActive then
        (Except.error "Cannot set inactive user as current user", store)
      else
        match fuel with
        | 0 => (Except.error "call depth exhausted", store)
        | f + 1 =>
          let r := updateUserF f uid { lastActive := some env.now } store env
          match r.1 with
          | Except.error e => (Except.error e, r.2)
          | Except.ok _ =>
            let store2 := { r.2 with currentUser := some uid }
            (Except.ok u, logSession uid "login" store2 env)
termination_by fuel _ _ _ => fuel

end

/-! ## Auxiliary verification definitions and concrete test data -/

/-- Rationals that are a whole number of hundredths (every built-in plate
denomination and every 2-decimal-rounded remainder is one). -/
def Hundredths (q : ℚ) : Prop := ∃ z : ℤ, q = (z : ℚ) / 100

/-- A stored profile that `normalizeUser` reproduces verbatim and
`UserValidators.user` accepts: truthy id / timestamps, trimmed name of valid
length and charset. -/
def StableUser (u : UserProfile) : Prop :=
  u.id ≠ "" ∧ u.createdAt ≠ "" ∧ u.lastActive ≠ "" ∧
  jsTrim u.name = u.name ∧ 2 ≤ u.name.length ∧ u.name.length ≤ 50 ∧
  u.name.data.all isNameChar = true

instance : DecidablePred StableUser := fun u => by
  unfold StableUser; infer_instance

/-- A deterministic well-behaved generator oracle used for concrete runs:
13-digit timestamps and 6-to-8-character lowercase hex tails. -/
def oracleA : GenOracle :=
  { ts := fun _ => 1700000000000
    hex6 := fun _ => "abcdef"
    wts := fun _ => 1700000000000
    micro := fun _ => 500
    hex8 := fun _ => "0123abcd"
    uuid := "9e107d9d-a3f5-4cde-8a01-23456789abcd" }

/-- Constant stream of well-behaved oracles. -/
def osA : ℕ → GenOracle := fun _ => oracleA

/-- A second randomness draw, identical to `oracleA` except that the primary
hex expansion of `Math.random()` comes out as `facade` instead of
`abcdef`. -/
def oracleB : GenOracle :=
  { ts := fun _ => 1700000000000
    hex6 := fun _ => "facade"
    wts := fun _ => 1700000000000
    micro := fun _ => 500
    hex8 := fun _ => "0123abcd"
    uuid := "9e107d9d-a3f5-4cde-8a01-23456789abcd" }

/-- A concrete `new Date(x).getTime()` model for runs whose claims do not
depend on date ordering. -/
def dmA : String → ℤ := fun _ => 0

/-- Concrete user-service environment. -/
def envA : UserEnv :=
  { uid := fun k => "user_1700000000000_" ++ toString k
    dateMs := fun _ => 0
    now := "2024-01-02T03:04:05.000Z" }

/-- A concrete stable workout record. -/
def cwA : Workout :=
  { id := "1700000000000_abcdef"
    date := "2024-01-01"
    exercise := "Squat"
    targetWeight := 100
    actualWeight := 100
    unit := "lbs"
    barbell := "Olympic Barbell (45 lbs)"
    sets := 3
    reps := 5
    completed := true
    notes := ""
    createdAt := "2024-01-01T00:00:00.000Z"
    updatedAt := "2024-01-01T00:00:00.000Z" }

/-- A store for the export/import round trip whose stored
`settings.totalWorkouts` (5) disagrees with the actual record count (1). -/
def c4Store : KeySet :=
  { workouts := some [cwA.toRaw]
    prefs := some DEFAULT_PREFERENCES.toRaw
    settings := some
      { dataVersion := some "1.0.0"
        lastBackup := none
        totalWorkouts := some 5
        firstUse := some "2024-01-01T00:00:00.000Z" }
    version := none }

/-- The bundle/state produced by exporting `c4Store`. -/
def c4Export : ExportBundle × KeySet :=
  exportData osA osA dmA "2024-01-02T03:04:05.000Z" c4Store

/-- The state after re-importing the freshly exported bundle. -/
def c4After : KeySet :=
  (importData (bundleToImport c4Export.1) osA osA osA dmA
    "2024-01-03T00:00:00.000Z" c4Export.2).2

/-- A soft-deleted stored profile named `alice`. -/
def aliceInactive : UserProfile :=
  { id := "user_1"
    name := "alice"
    createdAt := "2024-01-01T00:00:00.000Z"
    lastActive := "2024-01-01T00:00:00.000Z"
    preferences := DEFAULT_PREFERENCES
    isActive := false
    metadata := { totalWorkouts := 0, firstWorkout := none, lastWorkout := none } }

/-- A user store whose only profile is the soft-deleted `alice`. -/
def c6Store : UserStore :=
  { users := some [aliceInactive.toRaw], currentUser := none, sessions := none }

/-- An active stored profile named `bob`. -/
def bobActive : UserProfile :=
  { id := "user_2"
    name := "bob"
    createdAt := "2024-01-01T00:00:00.000Z"
    lastActive := "2024-01-01T00:00:00.000Z"
    preferences := DEFAULT_PREFERENCES
    isActive := true
    metadata := { totalWorkouts := 0, firstWorkout := none, lastWorkout := none } }

/-- A user store containing only the active `bob`, with no session pointer. -/
def c9Store : UserStore :=
  { users := some [bobActive.toRaw], currentUser := none, sessions := none }

/-- A store holding data only under the unscoped legacy keys. -/
def c8State : LegacyState :=
  { legacy :=
      { workouts := some [cwA.toRaw]
        prefs := some DEFAULT_PREFERENCES.toRaw
        settings := some
          { dataVersion := some "1.0.0"
            lastBackup := none
            totalWorkouts := some 1
            firstUse := some "2024-01-01T00:00:00.000Z" }
        version := none }
    userScoped := {} }

/-- Consistent stored settings for the C4 witness. -/
def c4GoodSettings : RawSettings :=
  { dataVersion := some "1.0.0"
    lastBackup := none
    totalWorkouts := some 1
    firstUse := some "2024-01-01T00:00:00.000Z" }

/-- A store like `c4Store` but whose stored `totalWorkouts` (1) agrees with
the stored record count, as the amended C4 claim requires. -/
def c4GoodStore : KeySet :=
  { workouts := some [cwA.toRaw]
    prefs := some DEFAULT_PREFERENCES.toRaw
    settings := some c4GoodSettings
    version := none }

/-- The round trip of the C4 claim: `importData(exportData())` on one store
(the export happening at `n₁`, the import at `n₂`). -/
def roundTripAfter (os₁ os₂ os₃ os₄ os₅ : ℕ → GenOracle)
    (dateMs : String → ℤ) (n₁ n₂ : String) (s : KeySet) :
    Except String Unit × KeySet :=
  importData (bundleToImport (exportData os₁ os₂ dateMs n₁ s).1) os₃ os₄ os₅
    dateMs n₂ (exportData os₁ os₂ dateMs n₁ s).2

/-! # Theorems -/

/-! ## Plate-solver properties -/

theorem round2_intCast_div (z : ℤ) : round2 ((z : ℚ) / 100) = (z : ℚ) / 100 := by
  unfold round2
  rw [div_mul_cancel₀ (z : ℚ) (by norm_num : (100 : ℚ) ≠ 0)]
  rw [add_comm, Int.floor_add_int]
  norm_num

theorem round2_le (q : ℚ) : round2 q ≤ q + 1 / 200 := by
  unfold round2
  have h := Int.floor_le (q * 100 + 1 / 2)
  have h2 : (⌊q * 100 + 1 / 2⌋ : ℚ) / 100 ≤ (q * 100 + 1 / 2) / 100 :=
    div_le_div_of_nonneg_right h (by norm_num)
  calc (⌊q * 100 + 1 / 2⌋ : ℚ) / 100 ≤ (q * 100 + 1 / 2) / 100 := h2
    _ = q + 1 / 200 := by ring

theorem round2_nonneg (q : ℚ) (hq : 0 ≤ q) : 0 ≤ round2 q := by
  unfold round2
  apply div_nonneg _ (by norm_num)
  have : (0 : ℤ) ≤ ⌊q * 100 + 1 / 2⌋ := by
    apply Int.floor_nonneg.mpr
    positivity
  exact_mod_cast this

/-- Invariant of the greedy loop over positive hundredth-valued
denominations: the remainder stays non-negative and the consumed weight is
exactly the weight removed from the initial remainder (the in-loop
re-rounding is the identity because every intermediate value is a whole
number of hundredths). -/
theorem greedyLoop_spec (ps : List ℚ) (r : ℚ)
    (hps : ∀ p ∈ ps, 0 < p ∧ Hundredths p)
    (hr0 : 0 ≤ r) (hr : Hundredths r) :
    0 ≤ (greedyLoop ps r).2 ∧ 0 ≤ plateSum (greedyLoop ps r).1 ∧
      plateSum (greedyLoop ps r).1 = r - (greedyLoop ps r).2 := by
  induction ps generalizing r with
  | nil => simp [greedyLoop, plateSum, hr0]
  | cons p ps ih =>
    obtain ⟨hp, zp, hzp⟩ := hps p (List.mem_cons_self p ps)
    by_cases hle : p ≤ r
    · obtain ⟨zr, hzr⟩ := hr
      have hc0 : (0 : ℤ) ≤ ⌊r / p⌋ := Int.floor_nonneg.mpr (div_nonneg hr0 hp.le)
      have hcp : (⌊r / p⌋ : ℚ) * p ≤ r := by
        have h1 : (⌊r / p⌋ : ℚ) ≤ r / p := Int.floor_le (r / p)
        calc (⌊r / p⌋ : ℚ) * p ≤ (r / p) * p := mul_le_mul_of_nonneg_right h1 hp.le
          _ = r := div_mul_cancel₀ r hp.ne'
      have hrem : Hundredths (r - (⌊r / p⌋ : ℚ) * p) := by
        refine ⟨zr - ⌊r / p⌋ * zp, ?_⟩
        rw [hzr, hzp]; push_cast; ring
      obtain ⟨zq, hzq⟩ := hrem
      have hround : round2 (r - (⌊r / p⌋ : ℚ) * p) = r - (⌊r / p⌋ : ℚ) * p := by
        rw [hzq, round2_intCast_div]
      have hrem0 : 0 ≤ r - (⌊r / p⌋ : ℚ) * p := by linarith
      have ihh := ih (round2 (r - (⌊r / p⌋ : ℚ) * p))
        (fun q hq => hps q (List.mem_cons_of_mem p hq))
        (by rw [hround]; exact hrem0) (by rw [hround, hzq]; exact ⟨zq, rfl⟩)
      have hsum0 : 0 ≤ (⌊r / p⌋ : ℚ) * p := by
        apply mul_nonneg _ hp.le
        exact_mod_cast hc0
      simp only [greedyLoop, if_pos hle, plateSum, List.map_cons, List.sum_cons] at *
      refine ⟨ihh.1, by linarith [ihh.2.1], ?_⟩
      linarith [ihh.2.2, hround]
    · have ihh := ih r (fun q hq => hps q (List.mem_cons_of_mem p hq)) hr0 hr
      simp only [greedyLoop, if_neg hle, plateSum, List.map_cons, List.sum_cons] at *
      refine ⟨ihh.1, by simpa using ihh.2.1, ?_⟩
      simpa using ihh.2.2

/-- The two built-in denomination lists consist of positive whole numbers of
hundredths. -/
theorem builtin_plates_pos_hundredths (pw : List ℚ)
    (h : pw = PLATE_WEIGHTS_LBS ∨ pw = PLATE_WEIGHTS_KG) :
    ∀ p ∈ pw, 0 < p ∧ Hundredths p := by
  rcases h with h | h <;> subst h <;> intro p hp <;> fin_cases hp
  · exact ⟨by norm_num, 4500, by norm_num⟩
  · exact ⟨by norm_num, 2500, by norm_num⟩
  · exact ⟨by norm_num, 1000, by norm_num⟩
  · exact ⟨by norm_num, 500, by norm_num⟩
  · exact ⟨by norm_num, 250, by norm_num⟩
  · exact ⟨by norm_num, 2500, by norm_num⟩
  · exact ⟨by norm_num, 2000, by norm_num⟩
  · exact ⟨by norm_num, 1500, by norm_num⟩
  · exact ⟨by norm_num, 1000, by norm_num⟩
  · exact ⟨by norm_num, 500, by norm_num⟩
  · exact ⟨by norm_num, 250, by norm_num⟩
  · exact ⟨by norm_num, 125, by norm_num⟩

/-- C1 (counterexample): the claim asserts `actualWeight ≥ targetWeight`
whenever `targetWeight ≥ barbellWeight`; but with the lbs list, a 45-lbs bar
and target 46 (46 ≥ 45, 46 ≥ 0, 45 > 0) the solver returns
`actualWeight = 45 < 46` — greedy decomposition undershoots. -/
theorem c1_counterexample :
    (0 : ℚ) ≤ 46 ∧ (0 : ℚ) < 45 ∧ (45 : ℚ) ≤ 46 ∧
      (calculatePlates PLATE_WEIGHTS_LBS 45 46).actualWeight < 46 := by
  norm_num [calculatePlates, PLATE_WEIGHTS_LBS, greedyLoop, round2, plateSum,
    plateCount]

/-- C1 (amended): for every `targetWeight ≥ 0` and `barbellWeight > 0`, with
the built-in lbs or kg denomination list, `calculatePlates` returns
`barbellWeight ≤ actualWeight ≤ targetWeight + 0.005` whenever
`targetWeight ≥ barbellWeight` (the greedy solver meets or undershoots the
target, except for at most the 0.005 introduced by rounding the remainder to
2 decimals), and returns `actualWeight = barbellWeight` whenever
`targetWeight < barbellWeight`. -/
theorem c1_actual_weight_bounds (pw : List ℚ)
    (hpw : pw = PLATE_WEIGHTS_LBS ∨ pw = PLATE_WEIGHTS_KG)
    (b t : ℚ) (ht : 0 ≤ t) (hb : 0 < b) :
    (b ≤ t → b ≤ (calculatePlates pw b t).actualWeight ∧
      (calculatePlates pw b t).actualWeight ≤ t + 1 / 200) ∧
    (t < b → (calculatePlates pw b t).actualWeight = b) := by
  constructor
  · intro hbt
    have hnlt : ¬(t < b) := not_lt.mpr hbt
    have hr0 : 0 ≤ round2 (t - b) := round2_nonneg _ (by linarith)
    have hrH : Hundredths (round2 (t - b)) := ⟨⌊(t - b) * 100 + 1 / 2⌋, rfl⟩
    have hspec := greedyLoop_spec pw (round2 (t - b))
      (builtin_plates_pos_hundredths pw hpw) hr0 hrH
    have hle : round2 (t - b) ≤ t - b + 1 / 200 := round2_le _
    simp only [calculatePlates, if_neg hnlt]
    constructor
    · linarith [hspec.2.1]
    · linarith [hspec.1, hspec.2.2]
  · intro hlt
    simp [calculatePlates, if_pos hlt]

/-- Witness for C1 (amended) at the lbs list, a 45-lbs bar and target 225. -/
theorem c1_actual_weight_bounds_witness :
    ((45 : ℚ) ≤ 225 →
      (45 : ℚ) ≤ (calculatePlates PLATE_WEIGHTS_LBS 45 225).actualWeight ∧
      (calculatePlates PLATE_WEIGHTS_LBS 45 225).actualWeight ≤ 225 + 1 / 200) ∧
    ((225 : ℚ) < 45 → (calculatePlates PLATE_WEIGHTS_LBS 45 225).actualWeight = 45) :=
  c1_actual_weight_bounds PLATE_WEIGHTS_LBS (Or.inl rfl) 45 225
    (by norm_num) (by norm_num)

/-- C2 (counterexample): for a 45-lbs bar and target 225 with the lbs
denominations the solver needs four 45-lbs plates (45 + 4·45 = 225), so
`totalPlates = 4`, not the claimed 2, and the breakdown maps 45 to 4, not
to 2. -/
theorem c2_counterexample :
    (calculatePlates PLATE_WEIGHTS_LBS 45 225).totalPlates ≠ 2 := by
  norm_num [calculatePlates, PLATE_WEIGHTS_LBS, greedyLoop, round2, plateSum,
    plateCount]

/-- C2 (amended): with barbell 45 lbs, target 225 lbs and denominations
[45, 25, 10, 5, 2.5], `calculatePlates` returns the breakdown {45: 4} (all
other denominations 0), `actualWeight = 225`, `exactMatch = true` and
`totalPlates = 4` — the total plate count for the whole bar, not a per-side
count. -/
theorem c2_example_225 :
    (calculatePlates PLATE_WEIGHTS_LBS 45 225).plateBreakdown =
      [(45, 4), (25, 0), (10, 0), (5, 0), (5 / 2, 0)] ∧
    (calculatePlates PLATE_WEIGHTS_LBS 45 225).actualWeight = 225 ∧
    (calculatePlates PLATE_WEIGHTS_LBS 45 225).exactMatch = true ∧
    (calculatePlates PLATE_WEIGHTS_LBS 45 225).totalPlates = 4 := by
  norm_num [calculatePlates, PLATE_WEIGHTS_LBS, greedyLoop, round2, plateSum,
    plateCount]

/-! ## Normalization / validation properties -/

theorem jsOrS_some_empty (s : String) : jsOrS (some s) "" = s := by
  by_cases h : s = "" <;> simp [jsOrS, h]

theorem jsOrS_some_keep (s d : String) (h : s ≠ "") : jsOrS (some s) d = s := by
  simp [jsOrS, h]

theorem jsOrS_ne (v : Option String) (d : String) (h : d ≠ "") :
    jsOrS v d ≠ "" := by
  cases v with
  | none => simpa [jsOrS] using h
  | some s => by_cases hs : s = "" <;> simp [jsOrS, hs, h]

theorem jsOrQ_some_zero (q : ℚ) : jsOrQ (some q) 0 = q := by
  by_cases h : q = 0 <;> simp [jsOrQ, h]

theorem jsOrQ_some_keep (q d : ℚ) (h : q ≠ 0) : jsOrQ (some q) d = q := by
  simp [jsOrQ, h]

theorem jsOrQ_ne (v : Option ℚ) (d : ℚ) (h : d ≠ 0) : jsOrQ v d ≠ 0 := by
  cases v with
  | none => simpa [jsOrQ] using h
  | some q => by_cases hq : q = 0 <;> simp [jsOrQ, hq, h]

theorem validateWorkout_ok_iff (w : Workout) :
    validateWorkout w = Except.ok () ↔
      (0 < w.targetWeight ∧ 0 < w.actualWeight ∧
        (w.unit = "lbs" ∨ w.unit = "kg") ∧ 0 < w.sets ∧ 0 < w.reps) := by
  unfold validateWorkout
  split_ifs with h1 h2 h3 h4 h5
  · exact iff_of_false (by simp) fun h => absurd h.1 (not_lt.mpr h1)
  · exact iff_of_false (by simp) fun h => absurd h.2.1 (not_lt.mpr h2)
  · exact iff_of_false (by simp) fun h => absurd h.2.2.2.1 (not_lt.mpr h4)
  · exact iff_of_false (by simp) fun h => absurd h.2.2.2.2 (not_lt.mpr h5)
  · exact iff_of_true rfl ⟨not_le.mp h1, not_le.mp h2, h3, not_le.mp h4, not_le.mp h5⟩
  · exact iff_of_false (by simp) fun h => absurd h.2.2.1 h3

theorem validateWorkout_isOk_iff (w : Workout) :
    (validateWorkout w).isOk = true ↔ validateWorkout w = Except.ok () := by
  unfold validateWorkout
  split_ifs <;> simp [Except.isOk, Except.toBool]

theorem validateWorkout_stamp (now : String) (w : Workout) :
    validateWorkout (stamp now w) = validateWorkout w := rfl

/-- Normalization reproduces a record whose id is valid and non-numeric and
whose fields are not falsy-defaultable, re-stamping only `updatedAt`. -/
theorem normalizeWorkout_fixed (w : Workout)
    (hval : isValidWorkoutId w.id = true) (hnum : isNumericId w.id = false)
    (hid : w.id ≠ "") (hdate : w.date ≠ "") (hca : w.createdAt ≠ "")
    (hbar : w.barbell ≠ "") (hunit : w.unit ≠ "")
    (hsets : w.sets ≠ 0) (hreps : w.reps ≠ 0)
    (ids : List String) (o : GenOracle) (now : String) :
    normalizeWorkout w.toRaw ids o now = stamp now w := by
  unfold normalizeWorkout Workout.toRaw stamp
  simp [hval, hnum, hid, jsOrS_some_keep _ _ hdate, jsOrS_some_keep _ _ hca,
    jsOrS_some_keep _ _ hbar, jsOrS_some_keep _ _ hunit, jsOrQ_some_zero,
    jsOrQ_some_keep _ _ hsets, jsOrQ_some_keep _ _ hreps, jsOrS_some_empty]

theorem normalizeWorkout_stable (w : Workout) (hw : StableWorkout w)
    (ids : List String) (o : GenOracle) (now : String) :
    normalizeWorkout w.toRaw ids o now = stamp now w := by
  obtain ⟨hval, hnum, hid, hdate, hca, hbar, hok⟩ := hw
  have hv := (validateWorkout_ok_iff w).mp hok
  refine normalizeWorkout_fixed w hval hnum hid hdate hca hbar ?_
    (ne_of_gt hv.2.2.2.1) (ne_of_gt hv.2.2.2.2) ids o now
  rcases hv.2.2.1 with h | h <;> simp [h]

theorem jsOrQ_pos_zero_iff (v : Option ℚ) :
    0 < jsOrQ v 0 ↔ ∃ q, v = some q ∧ 0 < q := by
  cases v with
  | none => simp [jsOrQ]
  | some q => by_cases h : q = 0 <;> simp [jsOrQ, h]

theorem jsOrQ_pos_one_iff (v : Option ℚ) :
    0 < jsOrQ v 1 ↔ ∀ q, v = some q → 0 ≤ q := by
  cases v with
  | none => simp [jsOrQ]
  | some q =>
    by_cases h : q = 0
    · simp [jsOrQ, h]
    · simp only [jsOrQ, if_neg h, Option.some.injEq]
      constructor
      · intro hq q2 he
        rw [← he]
        exact hq.le
      · intro hall
        exact (hall q rfl).lt_of_ne (Ne.symm h)

theorem jsOrS_unit_iff (v : Option String) :
    (jsOrS v "lbs" = "lbs" ∨ jsOrS v "lbs" = "kg") ↔
      (v = none ∨ v = some "" ∨ v = some "lbs" ∨ v = some "kg") := by
  cases v with
  | none => simp [jsOrS]
  | some s => by_cases h : s = "" <;> simp [jsOrS, h]

/-- C3 (counterexample): normalizing the empty object and validating the
result raises the positive-target-weight validation error — normalization
defaults a missing `targetWeight` to `0`, which `DataValidators.workout`
rejects, so validate-after-normalize is *not* guaranteed to succeed for any
object with at least an empty shape. -/
theorem c3_counterexample :
    validateWorkout (normalizeWorkout {} [] oracleA "2024-01-02T03:04:05.000Z") =
      Except.error "Target weight must be a positive number" := by decide

/-- C3 (amended): `normalizeWorkout(raw, existingIds)` never throws (it is a
total function of its inputs), but its result passes `DataValidators.workout`
exactly when the raw object's `targetWeight` and `actualWeight` coerce to
positive numbers, its `sets` and `reps` (when present as numbers) are
non-negative, and its `unit` is absent, empty, `lbs` or `kg`.  In particular
the empty object fails validation. -/
theorem c3_validate_after_normalize (w : RawWorkout) (ids : List String)
    (o : GenOracle) (now : String) :
    validateWorkout (normalizeWorkout w ids o now) = Except.ok () ↔
      ((∃ q, w.targetWeight = some q ∧ 0 < q) ∧
       (∃ q, w.actualWeight = some q ∧ 0 < q) ∧
       (∀ q, w.sets = some q → 0 ≤ q) ∧
       (∀ q, w.reps = some q → 0 ≤ q) ∧
       (w.unit = none ∨ w.unit = some "" ∨ w.unit = some "lbs" ∨
         w.unit = some "kg")) := by
  rw [validateWorkout_ok_iff]
  simp only [normalizeWorkout]
  rw [jsOrQ_pos_zero_iff, jsOrQ_pos_zero_iff, jsOrQ_pos_one_iff,
    jsOrQ_pos_one_iff, jsOrS_unit_iff]
  constructor
  · rintro ⟨a, b, c, d, e⟩
    exact ⟨a, b, d, e, c⟩
  · rintro ⟨a, b, c, d, e⟩
    exact ⟨a, b, e, c, d⟩

/-- C5 (counterexample): idempotence fails for every record whose first
normalization drew a widened-entropy id.  Normalizing the empty object
against the colliding id set of the C7 scenario assigns the id
`1700000000000_500_0123abcd`; since `isValidWorkoutId` rejects that shape,
a second normalization (here with fresh randomness whose primary candidate
no longer collides) regenerates the id to `1700000000000_facade` — so the
second output differs from the first in the `id` field, not just
`updatedAt`. -/
theorem c5_counterexample :
    normalizeWorkout
        (normalizeWorkout ({} : RawWorkout) ["1700000000000_abcdef"] oracleA
          "2024-01-02T03:04:05.000Z").toRaw
        ["1700000000000_abcdef"] oracleB "2024-01-03T00:00:00.000Z" ≠
      stamp "2024-01-03T00:00:00.000Z"
        (normalizeWorkout ({} : RawWorkout) ["1700000000000_abcdef"] oracleA
          "2024-01-02T03:04:05.000Z") ∧
    (normalizeWorkout
        (normalizeWorkout ({} : RawWorkout) ["1700000000000_abcdef"] oracleA
          "2024-01-02T03:04:05.000Z").toRaw
        ["1700000000000_abcdef"] oracleB "2024-01-03T00:00:00.000Z").id ≠
      (normalizeWorkout ({} : RawWorkout) ["1700000000000_abcdef"] oracleA
        "2024-01-02T03:04:05.000Z").id := by
  constructor <;> decide

/-- C5 (amended): re-normalizing the output of `normalizeWorkout(r, S)` (with
the same id set) reproduces it field-for-field except for the fresh
`updatedAt` stamp — in particular the already-assigned id is kept — whenever
the first normalization assigned a structurally valid, non-legacy id and the
wall clock produced a non-empty ISO timestamp.  The validity hypothesis is
exactly what the counterexample above violates: a widened-entropy id fails
`isValidWorkoutId` and is regenerated on the second pass. -/
theorem c5_normalize_idempotent (w : RawWorkout) (S : List String)
    (o₁ o₂ : GenOracle) (n₁ n₂ : String)
    (hval : isValidWorkoutId (normalizeWorkout w S o₁ n₁).id = true)
    (hnum : isNumericId (normalizeWorkout w S o₁ n₁).id = false)
    (hdate : isoDatePart n₁ ≠ "") (hnow : n₁ ≠ "") :
    normalizeWorkout (normalizeWorkout w S o₁ n₁).toRaw S o₂ n₂ =
      stamp n₂ (normalizeWorkout w S o₁ n₁) := by
  have hid : (normalizeWorkout w S o₁ n₁).id ≠ "" := by
    intro h
    rw [h] at hval
    exact absurd hval (by decide)
  have hdate2 : (normalizeWorkout w S o₁ n₁).date ≠ "" :=
    jsOrS_ne w.date (isoDatePart n₁) hdate
  have hca : (normalizeWorkout w S o₁ n₁).createdAt ≠ "" :=
    jsOrS_ne w.createdAt n₁ hnow
  have hbar : (normalizeWorkout w S o₁ n₁).barbell ≠ "" :=
    jsOrS_ne w.barbell "Olympic Barbell (45 lbs)" (by decide)
  have hunit : (normalizeWorkout w S o₁ n₁).unit ≠ "" :=
    jsOrS_ne w.unit "lbs" (by decide)
  have hsets : (normalizeWorkout w S o₁ n₁).sets ≠ 0 :=
    jsOrQ_ne w.sets 1 (by norm_num)
  have hreps : (normalizeWorkout w S o₁ n₁).reps ≠ 0 :=
    jsOrQ_ne w.reps 1 (by norm_num)
  exact normalizeWorkout_fixed _ hval hnum hid hdate2 hca hbar hunit hsets
    hreps S o₂ n₂

/-- Witness for C5: a concrete record with a valid timestamp_hex id. -/
theorem c5_normalize_idempotent_witness :
    normalizeWorkout
        (normalizeWorkout cwA.toRaw [] oracleA "2024-01-02T03:04:05.000Z").toRaw
        [] oracleA "2024-01-03T00:00:00.000Z" =
      stamp "2024-01-03T00:00:00.000Z"
        (normalizeWorkout cwA.toRaw [] oracleA "2024-01-02T03:04:05.000Z") :=
  c5_normalize_idempotent cwA.toRaw [] oracleA oracleA
    "2024-01-02T03:04:05.000Z" "2024-01-03T00:00:00.000Z"
    (by decide) (by decide) (by decide) (by decide)

/-- C7 (code bug): when the primary candidates collide 11 times (here the
sole existing id equals every primary candidate), `generateWorkoutId` returns
the widened-entropy id `{timestamp}_{microseconds}_{randomHex}` — and
`isValidWorkoutId` *rejects* that shape (its second underscore-separated
segment breaks the `\d{13}_[a-f0-9]{6,}` pattern, and it is neither a UUID
nor numeric), contradicting the contract that every generated id is accepted
by `isValid`.  The colliding candidate itself is well-formed, so the
scenario needs nothing outside the generator's specified behaviour. -/
theorem c7_widened_id_rejected :
    isValidWorkoutId "1700000000000_abcdef" = true ∧
    generateWorkoutId ["1700000000000_abcdef"] oracleA =
      "1700000000000_500_0123abcd" ∧
    isValidWorkoutId "1700000000000_500_0123abcd" = false := by decide

/-! ## Import guards (C10) and legacy migration (C8) -/

/-- C10: for every store and every import payload that is not an object or
lacks a truthy `version`, `importData` returns the corresponding hard error
with the store byte-for-byte unchanged (no write happens before the guards);
by contrast any payload with a truthy `version` — matching the schema
version or not — passes the guards and the import completes. -/
theorem c10_import_guard (os₁ os₂ os₃ : ℕ → GenOracle)
    (dateMs : String → ℤ) (now : String) :
    (∀ s : KeySet, importData ImportInput.nonObject os₁ os₂ os₃ dateMs now s =
      (Except.error "Invalid import data format", s)) ∧
    (∀ (s : KeySet) (d : RawBundle), truthyS d.version = none →
      importData (ImportInput.bundle d) os₁ os₂ os₃ dateMs now s =
        (Except.error "Import data missing version information", s)) ∧
    (∀ (s : KeySet) (d : RawBundle), truthyS d.version ≠ none →
      (importData (ImportInput.bundle d) os₁ os₂ os₃ dateMs now s).1 =
        Except.ok ()) := by
  refine ⟨fun s => rfl, fun s d h => by simp [importData, h], fun s d h => ?_⟩
  cases htv : truthyS d.version with
  | none => exact absurd htv h
  | some v => simp [importData, htv]

/-- Witness for C10 at concrete stores and payloads. -/
theorem c10_import_guard_witness :
    importData ImportInput.nonObject osA osA osA dmA "2024-01-03T00:00:00.000Z"
        c4Store = (Except.error "Invalid import data format", c4Store) ∧
    importData (ImportInput.bundle {}) osA osA osA dmA "2024-01-03T00:00:00.000Z"
        c4Store = (Except.error "Import data missing version information", c4Store) ∧
    (importData (ImportInput.bundle { version := some "0.9.9" }) osA osA osA dmA
        "2024-01-03T00:00:00.000Z" c4Store).1 = Except.ok () :=
  ⟨(c10_import_guard osA osA osA dmA "2024-01-03T00:00:00.000Z").1 c4Store,
   (c10_import_guard osA osA osA dmA "2024-01-03T00:00:00.000Z").2.1 c4Store {}
     (by decide),
   (c10_import_guard osA osA osA dmA "2024-01-03T00:00:00.000Z").2.2 c4Store
     { version := some "0.9.9" } (by decide)⟩

/-- C8: starting from a store whose only populated keys are the three
unscoped legacy ones, `migrateLegacyDataToUser` reports a migration, leaves
no unscoped key behind, places the original parsed data under the
user-scoped keys, and a second call finds nothing to migrate and changes
nothing. -/
theorem c8_legacy_migration (st : LegacyState)
    (hw : st.legacy.workouts.isSome = true)
    (hp : st.legacy.prefs.isSome = true)
    (hs : st.legacy.settings.isSome = true)
    (hv : st.legacy.version = none)
    (u1 : st.userScoped.workouts = none) (u2 : st.userScoped.prefs = none)
    (u3 : st.userScoped.settings = none) (u4 : st.userScoped.version = none) :
    (migrateLegacyDataToUser st).1 = true ∧
    (migrateLegacyDataToUser st).2.legacy.workouts = none ∧
    (migrateLegacyDataToUser st).2.legacy.prefs = none ∧
    (migrateLegacyDataToUser st).2.legacy.settings = none ∧
    (migrateLegacyDataToUser st).2.legacy.version = none ∧
    (migrateLegacyDataToUser st).2.userScoped.workouts = st.legacy.workouts ∧
    (migrateLegacyDataToUser st).2.userScoped.prefs = st.legacy.prefs ∧
    (migrateLegacyDataToUser st).2.userScoped.settings = st.legacy.settings ∧
    hasLegacyData (migrateLegacyDataToUser st).2 = false ∧
    migrateLegacyDataToUser (migrateLegacyDataToUser st).2 =
      (false, (migrateLegacyDataToUser st).2) := by
  obtain ⟨w, hw2⟩ := Option.isSome_iff_exists.mp hw
  obtain ⟨p, hp2⟩ := Option.isSome_iff_exists.mp hp
  obtain ⟨q, hs2⟩ := Option.isSome_iff_exists.mp hs
  simp [migrateLegacyDataToUser, hasLegacyData, hw2, hp2, hs2, hv]

/-- Witness for C8 at a concrete legacy-only store. -/
theorem c8_legacy_migration_witness :
    (migrateLegacyDataToUser c8State).1 = true ∧
    (migrateLegacyDataToUser c8State).2.legacy.workouts = none ∧
    (migrateLegacyDataToUser c8State).2.legacy.prefs = none ∧
    (migrateLegacyDataToUser c8State).2.legacy.settings = none ∧
    (migrateLegacyDataToUser c8State).2.legacy.version = none ∧
    (migrateLegacyDataToUser c8State).2.userScoped.workouts = c8State.legacy.workouts ∧
    (migrateLegacyDataToUser c8State).2.userScoped.prefs = c8State.legacy.prefs ∧
    (migrateLegacyDataToUser c8State).2.userScoped.settings = c8State.legacy.settings ∧
    hasLegacyData (migrateLegacyDataToUser c8State).2 = false ∧
    migrateLegacyDataToUser (migrateLegacyDataToUser c8State).2 =
      (false, (migrateLegacyDataToUser c8State).2) :=
  c8_legacy_migration c8State (by decide) (by decide) (by decide) (by decide)
    (by decide) (by decide) (by decide) (by decide)

/-! ## Export / import round trip (C4) -/

theorem mergePrefs_toRaw (p : Prefs) : mergePrefs p.toRaw = p := by
  simp [mergePrefs, Prefs.toRaw]

theorem mergeSettings_toRaw (v : Settings) : mergeSettings v.toRaw = v := by
  simp [mergeSettings, Settings.toRaw]

theorem stamp_stamp (n m : String) (w : Workout) :
    stamp n (stamp m w) = stamp n w := rfl

theorem stableWorkout_stamp (now : String) {w : Workout} (hw : StableWorkout w) :
    StableWorkout (stamp now w) := by
  obtain ⟨h1, h2, h3, h4, h5, h6, h7⟩ := hw
  exact ⟨h1, h2, h3, h4, h5, h6, by rw [validateWorkout_stamp]; exact h7⟩

theorem workoutHistLoop_stable (os : ℕ → GenOracle) (now : String) :
    ∀ (ws : List Workout), (∀ w ∈ ws, StableWorkout w) →
      ∀ (i : ℕ) (ids : List String),
        workoutHistLoop os now (ws.map Workout.toRaw) i ids = ws.map (stamp now)
  | [], _, _, _ => rfl
  | w :: ws, h, i, ids => by
    have hw := h w (List.mem_cons_self w ws)
    have hnorm := normalizeWorkout_stable w hw ids (os i) now
    have hok : (validateWorkout (stamp now w)).isOk = true := by
      rw [validateWorkout_stamp]
      exact (validateWorkout_isOk_iff w).mpr hw.2.2.2.2.2.2
    simp only [List.map_cons, workoutHistLoop, hnorm, hok, if_true]
    rw [workoutHistLoop_stable os now ws
      (fun x hx => h x (List.mem_cons_of_mem w hx)) (i + 1) (ids ++ [(stamp now w).id])]

theorem getWorkoutHistory_stable (os : ℕ → GenOracle) (now : String)
    (ws : List Workout) (h : ∀ w ∈ ws, StableWorkout w)
    (p : Option RawPrefs) (st : Option RawSettings) (v : Option String) :
    getWorkoutHistory os now
      { workouts := some (ws.map Workout.toRaw), prefs := p, settings := st,
        version := v } = ws.map (stamp now) := by
  unfold getWorkoutHistory
  exact workoutHistLoop_stable os now ws h 0 _

theorem mapWithIndex_normalize_stable (os : ℕ → GenOracle) (now : String) :
    ∀ (ws : List Workout), (∀ w ∈ ws, StableWorkout w) → ∀ (i : ℕ),
      mapWithIndex (fun k w => normalizeWorkout w.toRaw [] (os k) now) ws i =
        ws.map (stamp now)
  | [], _, _ => rfl
  | w :: ws, h, i => by
    have hnorm := normalizeWorkout_stable w (h w (List.mem_cons_self w ws)) [] (os i) now
    simp only [List.map_cons, mapWithIndex, hnorm]
    rw [mapWithIndex_normalize_stable os now ws
      (fun x hx => h x (List.mem_cons_of_mem w hx)) (i + 1)]

theorem importLoop_all_dup (os : ℕ → GenOracle) (now : String) :
    ∀ (ws : List Workout) (i : ℕ) (ids : List String) (acc : List Workout),
      (∀ w ∈ ws, StableWorkout w) → (∀ w ∈ ws, w.id ∈ ids) →
      importLoop os now (ws.map Workout.toRaw) i ids acc = acc
  | [], _, _, _, _, _ => rfl
  | w :: ws, i, ids, acc, h, hin => by
    have hw := h w (List.mem_cons_self w ws)
    have hnorm := normalizeWorkout_stable w hw ids (os i) now
    have hok : (validateWorkout (stamp now w)).isOk = true := by
      rw [validateWorkout_stamp]
      exact (validateWorkout_isOk_iff w).mpr hw.2.2.2.2.2.2
    have hmem : ids.contains (stamp now w).id = true := by
      have : w.id ∈ ids := hin w (List.mem_cons_self w ws)
      simpa [List.elem_iff] using this
    simp only [List.map_cons, importLoop, hnorm, hok, if_true, hmem]
    exact importLoop_all_dup os now ws (i + 1) ids acc
      (fun x hx => h x (List.mem_cons_of_mem w hx))
      (fun x hx => hin x (List.mem_cons_of_mem w hx))

theorem length_insertByDesc (key : α → ℤ) (x : α) :
    ∀ l : List α, (insertByDesc key x l).length = l.length + 1
  | [] => rfl
  | y :: ys => by
    by_cases h : key y ≤ key x <;>
      simp [insertByDesc, h, length_insertByDesc key x ys]

theorem length_sortByDesc (key : α → ℤ) :
    ∀ l : List α, (sortByDesc key l).length = l.length
  | [] => rfl
  | x :: xs => by
    simp [sortByDesc, length_insertByDesc, length_sortByDesc key xs]

theorem mem_insertByDesc (key : α → ℤ) (x y : α) :
    ∀ l : List α, (y ∈ insertByDesc key x l ↔ y = x ∨ y ∈ l)
  | [] => by simp [insertByDesc]
  | z :: zs => by
    by_cases h : key z ≤ key x <;>
      simp [insertByDesc, h, mem_insertByDesc key x y zs] <;> tauto

theorem mem_sortByDesc (key : α → ℤ) (y : α) :
    ∀ l : List α, (y ∈ sortByDesc key l ↔ y ∈ l)
  | [] => Iff.rfl
  | x :: xs => by
    simp [sortByDesc, mem_insertByDesc, mem_sortByDesc key y xs]

/-- Whatever the stored raw preferences are, the observable preferences view
passes the preferences validator. -/
theorem getPreferences_valid (s : KeySet) :
    prefsValid (some (getPreferences s).unit) (some (getPreferences s).theme) = true := by
  cases hp : s.prefs with
  | none => simp only [getPreferences, hp]; decide
  | some raw =>
    simp only [getPreferences, hp]
    by_cases hv : prefsValid raw.unit raw.theme = true
    · rw [if_pos hv]
      unfold prefsValid at hv ⊢
      rw [Bool.and_eq_true] at hv ⊢
      obtain ⟨hu, ht⟩ := hv
      constructor
      · cases hru : raw.unit with
        | none => simp [mergePrefs, hru, DEFAULT_PREFERENCES]
        | some u => rw [hru] at hu; simpa [mergePrefs, hru] using hu
      · cases hrt : raw.theme with
        | none => simp [mergePrefs, hrt, DEFAULT_PREFERENCES]
        | some t => rw [hrt] at ht; simpa [mergePrefs, hrt] using ht
    · rw [if_neg hv]
      decide

/-- C4 (counterexample): the round trip is *not* a no-op on every untouched
store.  On `c4Store` — one valid stored record but stored
`settings.totalWorkouts = 5` — `importData(exportData())` keeps the record
count at 1 but rewrites the observable settings, resyncing `totalWorkouts`
from 5 to the actual count 1. -/
theorem c4_counterexample :
    ((c4After.workouts.getD []).length = 1 ∧
      (c4Store.workouts.getD []).length = 1) ∧
    (getSettings "2024-01-05T00:00:00.000Z" c4Store).1.totalWorkouts = 5 ∧
    (getSettings "2024-01-05T00:00:00.000Z" c4After).1.totalWorkouts = 1 ∧
    (getSettings "2024-01-05T00:00:00.000Z" c4After).1 ≠
      (getSettings "2024-01-05T00:00:00.000Z" c4Store).1 := by decide

/-- C4 (amended): on a store whose stored workout records are all
normalized-stable and whose stored settings carry a truthy `firstUse` and a
`totalWorkouts` equal to the stored record count,
`importData(exportData())` succeeds, leaves the stored record count
unchanged (every exported record is rejected as a duplicate by id), and
leaves the observable preferences and observable settings unchanged
(both re-merge to the same values). -/
theorem c4_roundtrip_noop (os₁ os₂ os₃ os₄ os₅ : ℕ → GenOracle) (dateMs : String → ℤ)
    (n₁ n₂ n₃ : String) (ws : List Workout) (sraw : RawSettings) (s : KeySet)
    (hsw : s.workouts = some (ws.map Workout.toRaw))
    (hss : s.settings = some sraw)
    (hst : ∀ w ∈ ws, StableWorkout w)
    (f : String) (hfu : sraw.firstUse = some f) (hf : f ≠ "")
    (htw : sraw.totalWorkouts = some (ws.length : ℚ)) :
    (roundTripAfter os₁ os₂ os₃ os₄ os₅ dateMs n₁ n₂ s).1 = Except.ok () ∧
    ((roundTripAfter os₁ os₂ os₃ os₄ os₅ dateMs n₁ n₂ s).2.workouts.getD
      []).length = ws.length ∧
    getPreferences (roundTripAfter os₁ os₂ os₃ os₄ os₅ dateMs n₁ n₂ s).2 =
      getPreferences s ∧
    (getSettings n₃ (roundTripAfter os₁ os₂ os₃ os₄ os₅ dateMs n₁ n₂ s).2).1 =
      (getSettings n₃ s).1 := by
  obtain ⟨sw, sp, ss, svf⟩ := s
  simp only at hsw hss
  subst hsw hss
  set s : KeySet :=
    { workouts := some (ws.map Workout.toRaw), prefs := sp,
      settings := some sraw, version := svf } with hs
  set pv : Prefs := getPreferences s with hpv
  set sv : Settings := mergeSettings sraw with hsv
  have hist₁ : getWorkoutHistory os₁ n₁ s = ws.map (stamp n₁) :=
    getWorkoutHistory_stable os₁ n₁ ws hst sp (some sraw) svf
  have hexp : exportData os₁ os₂ dateMs n₁ s =
      (prepareExportData (ws.map (stamp n₁)) pv sv os₂ dateMs n₁, s) := by
    simp only [exportData, hist₁]
    rfl
  have hstab₁ : ∀ w ∈ ws.map (stamp n₁), StableWorkout w := by
    intro x hx
    obtain ⟨w, hw, rfl⟩ := List.mem_map.mp hx
    exact stableWorkout_stamp _ (hst w hw)
  have hcomp : (ws.map (stamp n₁)).map (stamp n₁) = ws.map (stamp n₁) := by
    rw [List.map_map]
    rfl
  have hbundle : bundleToImport (prepareExportData (ws.map (stamp n₁)) pv sv os₂ dateMs n₁) =
      ImportInput.bundle
        { version := some DATA_SCHEMA_VERSION,
          workouts := some ((ws.map (stamp n₁)).map Workout.toRaw),
          preferences := some pv.toRaw,
          settings := some sv.toRaw } := by
    simp only [bundleToImport, prepareExportData]
    rw [mapWithIndex_normalize_stable os₂ n₁ _ hstab₁ 0, hcomp,
      mergePrefs_toRaw, mergeSettings_toRaw]
  have hist₃ : getWorkoutHistory os₃ n₂ s = ws.map (stamp n₂) :=
    getWorkoutHistory_stable os₃ n₂ ws hst sp (some sraw) svf
  have hids : (ws.map (stamp n₂)).map (fun w => w.id) = ws.map (fun w => w.id) := by
    rw [List.map_map]
    rfl
  have hloop : importLoop os₄ n₂ ((ws.map (stamp n₁)).map Workout.toRaw) 0
      ((ws.map (stamp n₂)).map (fun w => w.id)) [] = [] := by
    apply importLoop_all_dup os₄ n₂ (ws.map (stamp n₁)) 0 _ [] hstab₁
    intro w hw
    obtain ⟨x, hx, rfl⟩ := List.mem_map.mp hw
    rw [hids]
    exact List.mem_map.mpr ⟨x, hx, rfl⟩
  have hguard : (truthyS (some DATA_SCHEMA_VERSION)).isNone = false := by decide
  have hpvv : prefsValid (some pv.unit) (some pv.theme) = true :=
    getPreferences_valid s
  have hsorted_stable : ∀ w ∈ sortByDesc (fun w => dateMs w.date)
      (ws.map (stamp n₂)), StableWorkout w := by
    intro x hx
    have hx2 := (mem_sortByDesc (fun w => dateMs w.date) x _).mp hx
    obtain ⟨w, hw, rfl⟩ := List.mem_map.mp hx2
    exact stableWorkout_stamp _ (hst w hw)
  set sorted : List Workout :=
    sortByDesc (fun w => dateMs w.date) (ws.map (stamp n₂)) with hsorted
  have hsavep : savePreferences pv.toRaw
      { workouts := some (sorted.map Workout.toRaw), prefs := sp,
        settings := some sraw, version := svf } =
      (Except.ok pv,
        { workouts := some (sorted.map Workout.toRaw), prefs := some pv.toRaw,
          settings := some sraw, version := svf }) := by
    simp only [savePreferences, mergePrefs_toRaw, hpvv, if_true]
  have hist₅ : getWorkoutHistory os₅ n₂
      { workouts := some (sorted.map Workout.toRaw), prefs := some pv.toRaw,
        settings := some sraw, version := svf } = sorted.map (stamp n₂) :=
    getWorkoutHistory_stable os₅ n₂ sorted hsorted_stable (some pv.toRaw)
      (some sraw) svf
  have hlen₅ : (sorted.map (stamp n₂)).length = ws.length := by
    rw [List.length_map, hsorted, length_sortByDesc, List.length_map]
  have htfu : truthyS (some f) = some f := by simp [truthyS, hf]
  have horself : ∀ x : Option String, x.orElse (fun _ => x) = x := by
    intro x
    cases x <;> rfl
  have hsaves : saveSettings
      { dataVersion := (mergeSettings sraw).toRaw.dataVersion,
        lastBackup := (mergeSettings sraw).toRaw.lastBackup,
        totalWorkouts := some ((ws.length : ℚ)),
        firstUse := (mergeSettings sraw).toRaw.firstUse } n₂
      { workouts := some (sorted.map Workout.toRaw), prefs := some pv.toRaw,
        settings := some sraw, version := svf } =
      (mergeSettings sraw,
        { workouts := some (sorted.map Workout.toRaw), prefs := some pv.toRaw,
          settings := some (mergeSettings sraw).toRaw, version := svf }) := by
    cases hlb : sraw.lastBackup <;>
      simp [saveSettings, mergeSettings, Settings.toRaw, Option.orElse,
        Option.bind, hfu, hlb, htfu, htw, truthyS, hf]
  have hrt : roundTripAfter os₁ os₂ os₃ os₄ os₅ dateMs n₁ n₂ s =
      (Except.ok (),
        { workouts := some (sorted.map Workout.toRaw),
          prefs := some pv.toRaw,
          settings := some (mergeSettings sraw).toRaw,
          version := svf }) := by
    simp only [roundTripAfter, hexp, hbundle, importData, hguard,
      Bool.false_eq_true, if_false, hist₃, hloop, List.append_nil, hsavep,
      getSettings, hist₅, hlen₅]
    rw [hsv, hsaves]
  rw [hrt]
  refine ⟨rfl, ?_, ?_, ?_⟩
  · simp only [Option.getD_some]
    rw [List.length_map, hsorted, length_sortByDesc, List.length_map]
  · have h1 : getPreferences
        { workouts := some (sorted.map Workout.toRaw), prefs := some pv.toRaw,
          settings := some (mergeSettings sraw).toRaw, version := svf } = pv := by
      simp only [getPreferences, Prefs.toRaw, hpvv, if_true]
      exact mergePrefs_toRaw pv
    rw [h1, hpv]
  · have h2 : getSettings n₃
        { workouts := some (sorted.map Workout.toRaw), prefs := some pv.toRaw,
          settings := some (mergeSettings sraw).toRaw, version := svf } =
        (mergeSettings sraw,
          { workouts := some (sorted.map Workout.toRaw), prefs := some pv.toRaw,
            settings := some (mergeSettings sraw).toRaw, version := svf }) := by
      simp only [getSettings]
      rw [mergeSettings_toRaw]
    rw [h2, hs]
    simp only [getSettings]

/-- Witness for C4 (amended) at the consistent one-record store. -/
theorem c4_roundtrip_noop_witness :
    (roundTripAfter osA osA osA osA osA dmA "2024-01-02T03:04:05.000Z"
        "2024-01-03T00:00:00.000Z" c4GoodStore).1 = Except.ok () ∧
    ((roundTripAfter osA osA osA osA osA dmA "2024-01-02T03:04:05.000Z"
        "2024-01-03T00:00:00.000Z" c4GoodStore).2.workouts.getD []).length =
      [cwA].length ∧
    getPreferences (roundTripAfter osA osA osA osA osA dmA
        "2024-01-02T03:04:05.000Z" "2024-01-03T00:00:00.000Z" c4GoodStore).2 =
      getPreferences c4GoodStore ∧
    (getSettings "2024-01-05T00:00:00.000Z"
        (roundTripAfter osA osA osA osA osA dmA "2024-01-02T03:04:05.000Z"
          "2024-01-03T00:00:00.000Z" c4GoodStore).2).1 =
      (getSettings "2024-01-05T00:00:00.000Z" c4GoodStore).1 :=
  c4_roundtrip_noop osA osA osA osA osA dmA "2024-01-02T03:04:05.000Z"
    "2024-01-03T00:00:00.000Z" "2024-01-05T00:00:00.000Z" [cwA] c4GoodSettings
    c4GoodStore (by decide) (by decide) (by decide)
    "2024-01-01T00:00:00.000Z" (by decide) (by decide) (by decide)

/-! ## User directory properties (C6, C9) -/

theorem string_eq_empty_of_length_eq_zero {s : String} (h : s.length = 0) :
    s = "" := by
  cases s with
  | mk data =>
    cases data with
    | nil => rfl
    | cons c cs => simp [String.length] at h

theorem normalizeUser_fixed (u : UserProfile) (hid : u.id ≠ "")
    (hca : u.createdAt ≠ "") (hla : u.lastActive ≠ "")
    (htrim : jsTrim u.name = u.name) (ids : List String) (env : UserEnv) :
    normalizeUser u.toRaw ids env = u := by
  unfold normalizeUser UserProfile.toRaw
  simp [jsOrS, jsOrQ_some_zero, htrim, mergePrefs_toRaw, hid, hca, hla]

theorem validateUserName_stable (u : UserProfile) (hu : StableUser u) :
    validateUserName u.name = Except.ok () := by
  obtain ⟨hid, hca, hla, htrim, hlen2, hlen50, hchars⟩ := hu
  have hname : u.name ≠ "" := by
    intro h
    rw [h] at hlen2
    simp at hlen2
  unfold validateUserName
  rw [htrim]
  rw [if_neg hname, if_neg (not_lt.mpr hlen2), if_neg (not_lt.mpr hlen50),
    if_neg (by simp [hchars])]

theorem validateUser_stable (u : UserProfile) (hu : StableUser u) :
    validateUser u = Except.ok () := by
  have hvn := validateUserName_stable u hu
  obtain ⟨hid, hca, hla, htrim, hlen2, hlen50, hchars⟩ := hu
  have hname : u.name ≠ "" := by
    intro h
    rw [h] at hlen2
    simp at hlen2
  have hidlen : ¬(u.id.length < 1) := by
    intro h
    have h0 : u.id.length = 0 := by omega
    exact hid (string_eq_empty_of_length_eq_zero h0)
  unfold validateUser
  rw [if_neg (by simp [hid, hname, hca])]
  simp only [hvn]
  rw [if_neg hidlen]

theorem stableUser_fields (u : UserProfile) (hu : StableUser u) :
    u.id ≠ "" ∧ u.createdAt ≠ "" ∧ u.lastActive ≠ "" ∧ jsTrim u.name = u.name :=
  ⟨hu.1, hu.2.1, hu.2.2.1, hu.2.2.2.1⟩

theorem usersLoop_stable (env : UserEnv) :
    ∀ (us : List UserProfile), (∀ u ∈ us, StableUser u) →
      ∀ (ids : List String), usersLoop env (us.map UserProfile.toRaw) ids = us
  | [], _, _ => rfl
  | u :: us, h, ids => by
    have hu := h u (List.mem_cons_self u us)
    obtain ⟨hid, hca, hla, htrim⟩ := stableUser_fields u hu
    have hnorm := normalizeUser_fixed u hid hca hla htrim ids env
    have hok : (validateUser u).isOk = true := by
      rw [validateUser_stable u hu]
      rfl
    simp only [List.map_cons, usersLoop, hnorm, hok, if_true]
    rw [usersLoop_stable env us (fun x hx => h x (List.mem_cons_of_mem u hx))
      (ids ++ [u.id])]

theorem getAllUsers_stable (store : UserStore) (env : UserEnv)
    (us : List UserProfile) (hus : store.users = some (us.map UserProfile.toRaw))
    (hstab : ∀ u ∈ us, StableUser u) :
    getAllUsers store env =
      sortByDesc (fun u => env.dateMs u.lastActive) us := by
  unfold getAllUsers
  rw [hus]
  simp only [Option.getD_some]
  rw [usersLoop_stable env us hstab]

theorem validateUserName_ne_dup (nm : String) :
    validateUserName nm ≠ Except.error "A user with this name already exists" := by
  unfold validateUserName
  split_ifs <;> decide

theorem validateUser_ne_dup (u : UserProfile) :
    validateUser u ≠ Except.error "A user with this name already exists" := by
  unfold validateUser
  split
  · decide
  · split
    next e heq =>
      have h2 := validateUserName_ne_dup u.name
      rw [heq] at h2
      exact h2
    next x heq =>
      split <;> decide

/-- C6 (counterexample): `createUser` rejects the name `Alice` as a
duplicate even though the only stored profile with that name
(case-insensitively) is soft-deleted (`isActive = false`); a collision with
only soft-deleted profiles is *not* accepted. -/
theorem c6_counterexample :
    aliceInactive.isActive = false ∧
    (createUser { name := some "Alice" } c6Store envA).1 =
      Except.error "A user with this name already exists" := by decide

/-- C6 (amended): `createUser` rejects a proposed user name as a duplicate
iff it matches, case-insensitively, the name of *some stored profile*,
whether active or soft-deleted (the active-only check exists only in
`userExistsByName`). -/
theorem c6_duplicate_check (store : UserStore) (env : UserEnv)
    (us : List UserProfile) (userData : RawUser) (nm : String)
    (hus : store.users = some (us.map UserProfile.toRaw))
    (hstab : ∀ u ∈ us, StableUser u)
    (hn : userData.name = some nm) :
    ((createUser userData store env).1 =
      Except.error "A user with this name already exists") ↔
      ∃ u ∈ us, jsToLower u.name = jsTrim (jsToLower nm) := by
  have hga := getAllUsers_stable store env us hus hstab
  have hchar :
      (((sortByDesc (fun u => env.dateMs u.lastActive) us).map
          fun u => jsToLower u.name).contains (jsTrim (jsToLower nm)) = true) ↔
        ∃ u ∈ us, jsToLower u.name = jsTrim (jsToLower nm) := by
    constructor
    · intro h
      have hm : jsTrim (jsToLower nm) ∈
          (sortByDesc (fun u => env.dateMs u.lastActive) us).map
            fun u => jsToLower u.name := by
        simpa [List.elem_iff] using h
      obtain ⟨u, hu, he⟩ := List.mem_map.mp hm
      exact ⟨u, (mem_sortByDesc _ u us).mp hu, he⟩
    · rintro ⟨u, hu, he⟩
      have hm : jsTrim (jsToLower nm) ∈
          (sortByDesc (fun u => env.dateMs u.lastActive) us).map
            fun u => jsToLower u.name :=
        List.mem_map.mpr ⟨u, (mem_sortByDesc _ u us).mpr hu, he⟩
      simpa [List.elem_iff] using hm
  simp only [createUser, hn, hga]
  by_cases hc : ((sortByDesc (fun u => env.dateMs u.lastActive) us).map
      fun u => jsToLower u.name).contains (jsTrim (jsToLower nm)) = true
  · rw [if_pos hc]
    exact iff_of_true rfl (hchar.mp hc)
  · rw [if_neg hc]
    cases hv : validateUser (normalizeUser userData
        ((sortByDesc (fun u => env.dateMs u.lastActive) us).map fun u => u.id) env) with
    | error e =>
      refine iff_of_false ?_ fun hr => hc (hchar.mpr hr)
      intro hcontra
      have h2 := validateUser_ne_dup (normalizeUser userData
        ((sortByDesc (fun u => env.dateMs u.lastActive) us).map fun u => u.id) env)
      rw [hv] at h2
      exact h2 (by simpa using hcontra)
    | ok x =>
      refine iff_of_false ?_ fun hr => hc (hchar.mpr hr)
      simp [hv]

/-- Witness for C6 (amended): the inactive `alice` blocks creating `Alice`. -/
theorem c6_duplicate_check_witness :
    ((createUser { name := some "Alice" } c6Store envA).1 =
      Except.error "A user with this name already exists") ↔
      ∃ u ∈ [aliceInactive], jsToLower u.name = jsTrim (jsToLower "Alice") :=
  c6_duplicate_check c6Store envA [aliceInactive] { name := some "Alice" }
    "Alice" (by decide) (by decide) (by decide)

theorem perm_insertByDesc (key : α → ℤ) (x : α) :
    ∀ l : List α, (insertByDesc key x l).Perm (x :: l)
  | [] => List.Perm.refl _
  | y :: ys => by
    by_cases h : key y ≤ key x
    · simp [insertByDesc, h]
    · simp only [insertByDesc, if_neg h]
      exact (List.Perm.cons y (perm_insertByDesc key x ys)).trans
        (List.Perm.swap x y ys)

theorem perm_sortByDesc (key : α → ℤ) :
    ∀ l : List α, (sortByDesc key l).Perm l
  | [] => List.Perm.refl _
  | x :: xs =>
    (perm_insertByDesc key x (sortByDesc key xs)).trans
      (List.Perm.cons x (perm_sortByDesc key xs))

/-- On a store whose stored profiles are the raw forms of a stable list,
`getUserById` either finds no profile (and then no stored profile carries
the requested id) or returns a member of the list carrying that id. -/
theorem getUserById_spec (st : UserStore) (env : UserEnv)
    (vs : List UserProfile) (p : String)
    (hst : st.users = some (vs.map UserProfile.toRaw))
    (hstab : ∀ u ∈ vs, StableUser u) (hp : p ≠ "") :
    (getUserById (some p) st env = none ∧ ∀ u ∈ vs, u.id ≠ p) ∨
    (∃ u2, getUserById (some p) st env = some u2 ∧ u2 ∈ vs ∧ u2.id = p) := by
  have hga := getAllUsers_stable st env vs hst hstab
  have htp : truthyS (some p) = some p := by simp [truthyS, hp]
  unfold getUserById
  rw [htp]
  simp only [hga]
  cases hf : (sortByDesc (fun u => env.dateMs u.lastActive) vs).find?
      (fun u => u.id = p) with
  | none =>
    left
    refine ⟨rfl, fun u hu hup => ?_⟩
    have := List.find?_eq_none.mp hf u
      ((mem_sortByDesc _ u vs).mpr hu)
    simp [hup] at this
  | some u2 =>
    right
    refine ⟨u2, rfl, ?_, ?_⟩
    · exact (mem_sortByDesc _ u2 vs).mp (List.mem_of_find?_eq_some hf)
    · have := List.find?_some hf
      simpa using this

/-- C9: soft deletion locks a user out of the session.  For any store whose
stored profiles are the raw forms of a stable, id-unique list containing a
profile with the requested id, `deleteUser` succeeds, leaves the session
pointer off the deleted id, and every subsequent `setCurrentUser` of that id
fails with "Cannot set inactive user as current user" without touching the
store — for every recursion fuel, since the inactive check precedes the
mutation. -/
theorem c9_soft_delete (store : UserStore) (env : UserEnv)
    (us : List UserProfile) (uid : String) (u₀ : UserProfile)
    (hus : store.users = some (us.map UserProfile.toRaw))
    (hstab : ∀ u ∈ us, StableUser u)
    (hnodup : (us.map fun u => u.id).Nodup)
    (hmem : u₀ ∈ us) (hid : u₀.id = uid)
    (hnow : env.now ≠ "") :
    (deleteUser uid store env).1 = Except.ok true ∧
    (deleteUser uid store env).2.currentUser ≠ some uid ∧
    ∀ fuel, setCurrentUserF fuel uid (deleteUser uid store env).2 env =
      (Except.error "Cannot set inactive user as current user",
        (deleteUser uid store env).2) := by
  have huid : uid ≠ "" := hid ▸ (hstab u₀ hmem).1
  have hga := getAllUsers_stable store env us hus hstab
  set key : UserProfile → ℤ := fun u => env.dateMs u.lastActive with hkey
  set sorted : List UserProfile := sortByDesc key us with hsortedDef
  have hsmem : ∀ x : UserProfile, x ∈ sorted ↔ x ∈ us := fun x =>
    mem_sortByDesc key x us
  have hsstab : ∀ u ∈ sorted, StableUser u := fun u hu =>
    hstab u ((hsmem u).mp hu)
  have hsnodup : (sorted.map fun u => u.id).Nodup :=
    (((perm_sortByDesc key us).map fun u => u.id).nodup_iff).mpr hnodup
  have hex : ∃ x ∈ sorted, (decide (x.id = uid)) = true :=
    ⟨u₀, (hsmem u₀).mpr hmem, by simp [hid]⟩
  have hlt : sorted.findIdx (fun u => decide (u.id = uid)) < sorted.length :=
    List.findIdx_lt_length_of_exists hex
  have hfind : sorted.findIdx? (fun u => decide (u.id = uid)) =
      some (sorted.findIdx fun u => decide (u.id = uid)) :=
    List.findIdx?_eq_some_iff_findIdx_eq.mpr ⟨hlt, rfl⟩
  set i : ℕ := sorted.findIdx (fun u => decide (u.id = uid)) with hi
  have horig_id : (sorted.getD i (normalizeUser {} [] env)).id = uid := by
    rw [List.getD_eq_getElem sorted _ hlt]
    have hpe := @List.findIdx_getElem _ (fun u => decide (u.id = uid)) sorted hlt
    simpa using hpe
  set orig : UserProfile := sorted.getD i (normalizeUser {} [] env) with horig
  set modified : UserProfile :=
    { orig with isActive := false, lastActive := env.now } with hmod
  set users1 : List UserProfile := sorted.set i modified with husers1
  have horig_mem : orig ∈ sorted := by
    rw [horig, List.getD_eq_getElem sorted _ hlt]
    exact List.getElem_mem hlt
  have hA : ∀ u ∈ users1, StableUser u := by
    intro u hu
    rcases List.mem_or_eq_of_mem_set hu with h | h
    · exact hsstab u h
    · subst h
      obtain ⟨s1, s2, s3, s4, s5, s6, s7⟩ := hsstab orig horig_mem
      exact ⟨s1, s2, hnow, s4, s5, s6, s7⟩
  have hB : ∀ u ∈ users1, u.id = uid → u.isActive = false := by
    intro u hu hup
    obtain ⟨j, hj, hje⟩ := List.mem_iff_getElem.mp hu
    have hjlen : j < sorted.length := by
      simpa [husers1, List.length_set] using hj
    have hiid : sorted[i].id = uid := by
      rw [← horig_id, horig, List.getD_eq_getElem sorted _ hlt]
    by_cases hji : j = i
    · have hset : users1[j] = modified := by
        subst hji
        exact List.getElem_set_self hj
      have hum : modified = u := hset.symm.trans hje
      rw [← hum, hmod]
    · have hset : users1[j] = sorted[j] := List.getElem_set_ne (by omega) hj
      exfalso
      have hjid : sorted[j].id = uid := by
        rw [hset.symm.trans hje]
        exact hup
      apply hji
      have hjm : j < (sorted.map fun u => u.id).length := by
        simpa using hjlen
      have him : i < (sorted.map fun u => u.id).length := by
        simpa using hlt
      have heq2 : (sorted.map fun u => u.id)[j] = (sorted.map fun u => u.id)[i] := by
        rw [List.getElem_map, List.getElem_map, hjid, hiid]
      exact (List.Nodup.getElem_inj_iff hsnodup).mp heq2
  have hmodid : modified.id = uid := horig_id
  have hmod_mem : modified ∈ users1 := by
    rw [husers1]
    have h1 : i < (sorted.set i modified).length := by
      rw [List.length_set]; exact hlt
    exact List.mem_iff_getElem.mpr ⟨i, h1, List.getElem_set_self h1⟩
  have hclear_users : ∀ st : UserStore, (clearCurrentUser st env).users = st.users := by
    intro st
    cases h : getCurrentUser st env <;> simp [clearCurrentUser, logSession, h]
  have hclear_cur : ∀ st : UserStore, (clearCurrentUser st env).currentUser = none := by
    intro st
    cases h : getCurrentUser st env <;> simp [clearCurrentUser, logSession, h]
  have hset3 : ∀ st2 : UserStore,
      st2.users = some (users1.map UserProfile.toRaw) →
      ∀ fuel, setCurrentUserF fuel uid st2 env =
        (Except.error "Cannot set inactive user as current user", st2) := by
    intro st2 hst2 fuel
    rcases getUserById_spec st2 env users1 uid hst2 hA huid with
      ⟨_, hnone⟩ | ⟨u2, hg2, hu2, hid2⟩
    · exact absurd hmodid (hnone modified hmod_mem)
    · have hinact : u2.isActive = false := hB u2 hu2 hid2
      rw [setCurrentUserF, hg2]
      simp [hinact]
  cases hsc : store.currentUser with
  | none =>
    have hcu : getCurrentUser
        { store with users := some (users1.map UserProfile.toRaw) } env = none := by
      simp [getCurrentUser, getUserById, hsc, truthyS]
    have hdel : deleteUser uid store env =
        (Except.ok true, { store with users := some (users1.map UserProfile.toRaw) }) := by
      simp only [deleteUser, hga, hfind, ← horig, ← hmod, ← husers1, hcu]
    rw [hdel]
    refine ⟨rfl, ?_, fun fuel => hset3 _ rfl fuel⟩
    intro hcontra
    have h2 : store.currentUser = some uid := hcontra
    rw [hsc] at h2
    exact Option.noConfusion h2
  | some p =>
    by_cases hpe : p = ""
    · have hcu : getCurrentUser
          { store with users := some (users1.map UserProfile.toRaw) } env = none := by
        simp [getCurrentUser, getUserById, hsc, hpe, truthyS]
      have hdel : deleteUser uid store env =
          (Except.ok true, { store with users := some (users1.map UserProfile.toRaw) }) := by
        simp only [deleteUser, hga, hfind, ← horig, ← hmod, ← husers1, hcu]
      rw [hdel]
      refine ⟨rfl, ?_, fun fuel => hset3 _ rfl fuel⟩
      intro hcontra
      have h2 : store.currentUser = some uid := hcontra
      rw [hsc] at h2
      have hpu : p = uid := Option.some.inj h2
      exact huid (by rw [← hpu, hpe])
    · rcases getUserById_spec
          { store with users := some (users1.map UserProfile.toRaw) } env users1 p rfl hA hpe with
        ⟨hgn, hnone⟩ | ⟨u2, hg2, hu2, hid2⟩
      · have hcu : getCurrentUser
            { store with users := some (users1.map UserProfile.toRaw) } env = none := by
          simpa [getCurrentUser, hsc] using hgn
        have hdel : deleteUser uid store env =
            (Except.ok true, { store with users := some (users1.map UserProfile.toRaw) }) := by
          simp only [deleteUser, hga, hfind, ← horig, ← hmod, ← husers1, hcu]
        rw [hdel]
        refine ⟨rfl, ?_, fun fuel => hset3 _ rfl fuel⟩
        intro hcontra
        have h2 : store.currentUser = some uid := hcontra
        rw [hsc] at h2
        have hpu : p = uid := Option.some.inj h2
        exact (hnone modified hmod_mem) (hmodid.trans hpu.symm)
      · have hcu : getCurrentUser
            { store with users := some (users1.map UserProfile.toRaw) } env = some u2 := by
          simpa [getCurrentUser, hsc] using hg2
        by_cases hq : u2.id = uid
        · have hdel : deleteUser uid store env =
              (Except.ok true, clearCurrentUser
                { store with users := some (users1.map UserProfile.toRaw) } env) := by
            simp only [deleteUser, hga, hfind, ← horig, ← hmod, ← husers1, hcu, if_pos hq]
          rw [hdel]
          refine ⟨rfl, ?_, fun fuel => hset3 _ (hclear_users _) fuel⟩
          intro hcontra
          have h2 : (clearCurrentUser
              { store with users := some (users1.map UserProfile.toRaw) } env).currentUser =
              some uid := hcontra
          rw [hclear_cur] at h2
          exact Option.noConfusion h2
        · have hdel : deleteUser uid store env =
              (Except.ok true, { store with users := some (users1.map UserProfile.toRaw) }) := by
            simp only [deleteUser, hga, hfind, ← horig, ← hmod, ← husers1, hcu, if_neg hq]
          rw [hdel]
          refine ⟨rfl, ?_, fun fuel => hset3 _ rfl fuel⟩
          intro hcontra
          have h2 : store.currentUser = some uid := hcontra
          rw [hsc] at h2
          have hpu : p = uid := Option.some.inj h2
          exact hq (hid2.trans hpu)

/-- Witness for C9 at the concrete store holding only the active `bob`. -/
theorem c9_soft_delete_witness :
    c9Store.users = some ([bobActive].map UserProfile.toRaw) ∧
    (∀ u ∈ [bobActive], StableUser u) ∧
    ([bobActive].map fun u => u.id).Nodup ∧
    bobActive ∈ [bobActive] ∧ bobActive.id = "user_2" ∧ envA.now ≠ "" ∧
    ((deleteUser "user_2" c9Store envA).1 = Except.ok true ∧
     (deleteUser "user_2" c9Store envA).2.currentUser ≠ some "user_2" ∧
     ∀ fuel, setCurrentUserF fuel "user_2" (deleteUser "user_2" c9Store envA).2 envA =
       (Except.error "Cannot set inactive user as current user",
         (deleteUser "user_2" c9Store envA).2)) :=
  ⟨by decide, by decide, by decide, by decide, by decide, by decide,
   c9_soft_delete c9Store envA [bobActive] "user_2" bobActive (by decide)
     (by decide) (by decide) (by decide) (by decide) (by decide)⟩
